import Mathlib

/-
  Verification of the device reconciliation engine of the
  raspberry-pi-network-monitor repository.

  The Python sources are embedded shallowly:
  - nmap scan snapshots become lists of host entries;
  - Python dictionaries become association lists built with an
    insert-or-replace operation that preserves insertion order,
    exactly as Python dicts do;
  - the PostgreSQL devices table becomes a list of rows keyed by
    mac_address;
  - code that can raise a KeyError (subscripting a missing key)
    returns Except, with .error marking the raised exception;
  - timestamps are naturals, and the wall clock is passed explicitly;
  - external collaborators (the MAC vendor resolver, the ARP table)
    are passed as function parameters.

  Some embedded functions additionally record, in extra result fields,
  the sequence of calls the Python code makes to its collaborators
  (upsert calls to Postgres, vendor resolver calls): these are ghost
  observations of real side effects of the source, used to state the
  claims about the change set and about resolver usage.
-/

deriving instance DecidableEq for Except

namespace NetMon

/-- Python str.upper, used by the sources on every MAC before comparison
or storage. Modelled character by character on the underlying list. -/
def pyUpper (s : String) : String := ⟨s.data.map Char.toUpper⟩

/-- Lookup in a Python-dict model: first binding wins (dicts built with
dictInsert hold at most one binding per key, so this matches dict lookup). -/
def dlookup {α : Type} : List (String × α) → String → Option α
  | [], _ => none
  | p :: r, k => if p.1 = k then some p.2 else dlookup r k

/-- Python dict assignment d[k] = v: replace in place if the key is
present, append otherwise (insertion order preserved). -/
def dictInsert {α : Type} : List (String × α) → String → α → List (String × α)
  | [], k, v => [(k, v)]
  | p :: r, k, v => if p.1 = k then (k, v) :: r else p :: dictInsert r k v

/-- Keys of a dict model, in insertion order. -/
def dkeys {α : Type} (d : List (String × α)) : List String := d.map Prod.fst

/-- One open port observation, the dict with keys port and service built in
scan_and_process of app_with_postgres.py. -/
structure OpenPort where
  port : Nat
  service : String
deriving DecidableEq

/-- The addresses dict of one nmap host entry. Missing mac or ipv4 keys
are None; the .get defaults of the source supply UNKNOWN and Unknown. -/
structure Addresses where
  mac : Option String
  ipv4 : Option String
deriving DecidableEq

/-- One port record of an nmap host entry: its state and optional service
name (port_data.get with default unknown in the source). -/
structure PortData where
  state : String
  name : Option String
deriving DecidableEq

/-- One host entry of an nmap scan result, as the sources access it:
state comes from nm_result[host].state(), addresses from
nm_result[host]["addresses"] (a KeyError when the key is absent, hence
Option), and the tcp and udp port tables (an absent table behaves like
an empty one, since the source only iterates over it). -/
structure HostEntry where
  state : String
  addresses : Option Addresses
  tcp : List (Nat × PortData)
  udp : List (Nat × PortData)
deriving DecidableEq

/-- A scan snapshot: the hosts of nm_result.all_hosts() in iteration
order. -/
abbrev Snapshot := List HostEntry

/-- The Device dataclass of app_with_postgres.py. -/
structure Device where
  mac_address : String
  ip_address : String
  vendor : String
  description : Option String
  known : Bool
  state : String
  first_seen : Option Nat
  last_seen : Option Nat
  open_ports : List OpenPort
deriving DecidableEq

/-- One row of the Postgres devices table of app_with_postgres.py. -/
structure DBRow where
  mac_address : String
  ip_address : String
  vendor : String
  description : Option String
  known : Bool
  state : String
  first_seen : Option Nat
  last_seen : Option Nat
  open_ports : List OpenPort
deriving DecidableEq

/-- The Device shape device_manager.py constructs and uses
(mac_address, ip_address, vendor, known, state). -/
structure DMDevice where
  mac_address : String
  ip_address : String
  vendor : String
  known : Bool
  state : String
deriving DecidableEq

/-- The Device dataclass of device.py, used by network_monitor.py. -/
structure NMDevice where
  device_name : String
  mac_address : String
  device_type : String
  hostname : String
  state : String
  known : Bool
  vendor : Option String
deriving DecidableEq

/-- One host entry as network_monitor.py accesses it: the host key itself
(passed to the ARP fallback), state, addresses (Option: a missing key is
a KeyError), the hostnames list (only the first name is read), and the
per-host vendor dict of nmap. -/
structure NMHost where
  host : String
  state : String
  addresses : Option Addresses
  hostnames : List String
  vendorTable : List (String × String)
deriving DecidableEq

/-- SELECT by mac_address on the devices table: first matching row. -/
def dbLookup : List DBRow → String → Option DBRow
  | [], _ => none
  | r :: t, k => if r.mac_address = k then some r else dbLookup t k

/-- The row produced by the UPDATE branch of
PostgresDeviceManager.upsert_device: ip_address, state, last_seen and
open_ports are overwritten, first_seen is COALESCE(first_seen, now),
every other column is untouched. -/
def updRow (now : Nat) (device : Device) (r : DBRow) : DBRow :=
  { r with
    ip_address := device.ip_address
    state := device.state
    last_seen := some now
    open_ports := device.open_ports
    first_seen := match r.first_seen with
      | some t => some t
      | none => some now }

/-- PostgresDeviceManager.upsert_device of app_with_postgres.py: check
for an existing row by the uppercased MAC, then UPDATE every row with
that mac_address, or INSERT a fresh row with first_seen = last_seen =
now. -/
def upsert_device (db : List DBRow) (now : Nat) (device : Device) : List DBRow :=
  let device_mac := pyUpper device.mac_address
  match dbLookup db device_mac with
  | some _ => db.map fun r => if r.mac_address = device_mac then updRow now device r else r
  | none => db ++ [{
      mac_address := device_mac
      ip_address := device.ip_address
      vendor := device.vendor
      description := device.description
      known := device.known
      state := device.state
      first_seen := some now
      last_seen := some now
      open_ports := device.open_ports }]

/-- The Device built from one Postgres row in
PostgresDeviceManager.load_all_devices (the MAC is uppercased). -/
def rowDevice (row : DBRow) : Device :=
  { mac_address := pyUpper row.mac_address
    ip_address := row.ip_address
    vendor := row.vendor
    description := row.description
    known := row.known
    state := row.state
    first_seen := row.first_seen
    last_seen := row.last_seen
    open_ports := row.open_ports }

/-- The row loop of load_all_devices: all_devices[mac] = dev for each
row, into a Python dict. -/
def loadGo (acc : List (String × Device)) : List DBRow → List (String × Device)
  | [] => acc
  | row :: rest => loadGo (dictInsert acc (pyUpper row.mac_address) (rowDevice row)) rest

/-- PostgresDeviceManager.load_all_devices: the devices table as a dict
keyed by uppercased mac_address. -/
def load_all_devices (rows : List DBRow) : List (String × Device) := loadGo [] rows

/-- The open-port extraction loop of scan_and_process over one port
table: open ports keep their number and service name (default unknown). -/
def extractPorts (l : List (Nat × PortData)) : List OpenPort :=
  l.filterMap fun p =>
    if p.2.state = "open" then some { port := p.1, service := p.2.name.getD "unknown" } else none

/-- Open ports of one host entry: the tcp table then the udp table, as
scan_and_process appends them. -/
def hostOpenPorts (h : HostEntry) : List OpenPort :=
  extractPorts h.tcp ++ extractPorts h.udp

/-- The MACs one host entry contributes to found_macs: its uppercased MAC
when the host is up and carries one (the addresses.get default UNKNOWN
marks a missing MAC and is skipped). -/
def hostMacs (h : HostEntry) : List String :=
  if h.state = "up" then
    match h.addresses with
    | none => []
    | some a =>
      if pyUpper (a.mac.getD "UNKNOWN") = "UNKNOWN" then []
      else [pyUpper (a.mac.getD "UNKNOWN")]
  else []

/-- foundAddresses: all MACs observed up in a snapshot, in host order. -/
def foundAddresses (snap : Snapshot) : List String := (snap.map hostMacs).flatten

/-- State of the host loop of NetworkMonitorApp.scan_and_process:
the all_devices dict, the found_macs set (kept as the insertion list,
used only through membership), plus ghost logs of the upsert_device
calls and of the vendor resolver calls. -/
structure SAPState where
  all_devices : List (String × Device)
  found_macs : List String
  upserts : List Device
  vendor_calls : List String
deriving DecidableEq

/-- One iteration of the host loop of scan_and_process: skip hosts that
are not up, raise (error) on a host with no addresses key, skip hosts
without a MAC, otherwise update the existing device in place (state,
ip_address, open_ports) or build a brand-new unknown Device with a
resolved vendor, and upsert it. -/
def processHost (gv : String → String) (st : SAPState) (h : HostEntry) : Except Unit SAPState :=
  if h.state = "up" then
    match h.addresses with
    | none => .error ()
    | some addrs =>
      let mac := pyUpper (addrs.mac.getD "UNKNOWN")
      let ip := addrs.ipv4.getD "Unknown"
      if mac = "UNKNOWN" then .ok st
      else
        let found := st.found_macs ++ [mac]
        let ports := hostOpenPorts h
        match dlookup st.all_devices mac with
        | some dev0 =>
          let dev := { dev0 with state := "up", ip_address := ip, open_ports := ports }
          .ok { all_devices := dictInsert st.all_devices mac dev
                found_macs := found
                upserts := st.upserts ++ [dev]
                vendor_calls := st.vendor_calls }
        | none =>
          let vendor := gv mac
          let dev : Device :=
            { mac_address := mac, ip_address := ip, vendor := vendor, description := none
              known := false, state := "up", first_seen := none, last_seen := none
              open_ports := ports }
          .ok { all_devices := st.all_devices
                found_macs := found
                upserts := st.upserts ++ [dev]
                vendor_calls := st.vendor_calls ++ [mac] }
  else .ok st

/-- The host loop of scan_and_process over a whole snapshot. -/
def sapRun (gv : String → String) : Snapshot → SAPState → Except Unit SAPState
  | [], st => .ok st
  | h :: t, st =>
    match processHost gv st h with
    | .error e => .error e
    | .ok st2 => sapRun gv t st2

/-- A device set to down by the down pass of scan_and_process. -/
def downDevice (d : Device) : Device := { d with state := "down" }

/-- The down pass of scan_and_process: every device of the dict whose MAC
was not found is set to down and upserted, unless it is already down.
Returns the updated dict and the upsert calls of this pass in order. -/
def downLoop (found : List String) : List (String × Device) → List (String × Device) × List Device
  | [] => ([], [])
  | (k, d) :: rest =>
    let r := downLoop found rest
    if k ∈ found then ((k, d) :: r.1, r.2)
    else if d.state = "down" then ((k, d) :: r.1, r.2)
    else ((k, downDevice d) :: r.1, downDevice d :: r.2)

/-- The result of one scan_and_process pass: the device dict after both
loops, the full sequence of upsert_device calls (the change set), and the
ghost found_macs and vendor-call logs. -/
structure SAPResult where
  all_devices : List (String × Device)
  upserts : List Device
  found_macs : List String
  vendor_calls : List String
deriving DecidableEq

/-- NetworkMonitorApp.scan_and_process of app_with_postgres.py, from the
loaded registry dict on: the host loop followed by the down pass. -/
def scan_and_process (gv : String → String) (snapshot : Snapshot)
    (all_devices0 : List (String × Device)) : Except Unit SAPResult :=
  match sapRun gv snapshot
      { all_devices := all_devices0, found_macs := [], upserts := [], vendor_calls := [] } with
  | .error e => .error e
  | .ok st =>
    let dl := downLoop st.found_macs st.all_devices
    .ok { all_devices := dl.1
          upserts := st.upserts ++ dl.2
          found_macs := st.found_macs
          vendor_calls := st.vendor_calls }

/-- One full reconciliation cycle of scan_and_process: load the registry
from the devices table, then reconcile the snapshot against it. -/
def scan_cycle (gv : String → String) (rows : List DBRow) (snapshot : Snapshot) :
    Except Unit SAPResult :=
  scan_and_process gv snapshot (load_all_devices rows)

/-- State of the host loop of DeviceManager.merge_scan_results: the
known_dict built from the known-device list, the connected and unknown
output lists, and a ghost log of the vendor resolver calls. The Python
function returns the pair (connected, unknown). -/
structure MergeState where
  known_dict : List (String × DMDevice)
  connected : List DMDevice
  unknown : List DMDevice
  vendor_calls : List String
deriving DecidableEq

/-- The dict comprehension of merge_scan_results mapping each known
device MAC to the device (later duplicates overwrite earlier ones). -/
def knownGo (acc : List (String × DMDevice)) : List DMDevice → List (String × DMDevice)
  | [] => acc
  | d :: rest => knownGo (dictInsert acc d.mac_address d) rest

/-- Build the known_dict of merge_scan_results. -/
def mkKnownDict (devs : List DMDevice) : List (String × DMDevice) := knownGo [] devs

/-- One iteration of the host loop of merge_scan_results: skip non-up
hosts, raise on a host with no addresses key, skip hosts without a MAC;
otherwise look up the vendor (for every such host), then update the
known device in place (state, ip_address, vendor) and append it to
connected, or append a new unknown DMDevice. -/
def mergeHost (gv : String → String) (st : MergeState) (h : HostEntry) : Except Unit MergeState :=
  if h.state = "up" then
    match h.addresses with
    | none => .error ()
    | some addrs =>
      let mac := pyUpper (addrs.mac.getD "UNKNOWN")
      let ip := addrs.ipv4.getD "Unknown"
      if mac = "UNKNOWN" then .ok st
      else
        let vendor := gv mac
        let st2 := { st with vendor_calls := st.vendor_calls ++ [mac] }
        match dlookup st2.known_dict mac with
        | some dev0 =>
          let dev := { dev0 with state := "up", ip_address := ip, vendor := vendor }
          .ok { st2 with
                known_dict := dictInsert st2.known_dict mac dev
                connected := st2.connected ++ [dev] }
        | none =>
          .ok { st2 with
                unknown := st2.unknown ++
                  [{ mac_address := mac, ip_address := ip, vendor := vendor
                     known := false, state := "up" }] }
  else .ok st

/-- The host loop of merge_scan_results over a whole snapshot. -/
def mergeRun (gv : String → String) : Snapshot → MergeState → Except Unit MergeState
  | [], st => .ok st
  | h :: t, st =>
    match mergeHost gv st h with
    | .error e => .error e
    | .ok st2 => mergeRun gv t st2

/-- DeviceManager.merge_scan_results of device_manager.py. The Python
return value is the pair (connected, unknown) of the final state. -/
def merge_scan_results (gv : String → String) (snapshot : Snapshot)
    (known_devices : List DMDevice) : Except Unit MergeState :=
  mergeRun gv snapshot
    { known_dict := mkKnownDict known_devices, connected := [], unknown := [], vendor_calls := [] }

/-- State of the host loop of process_scan_results of network_monitor.py:
the known-device list (mutated in place) and the two output lists. -/
structure PSRState where
  known : List NMDevice
  connected : List NMDevice
  unknown : List NMDevice
deriving DecidableEq

/-- next(device for device in known_devices if device.mac_address == mac)
of network_monitor.py: the first matching known device. -/
def findFirst : List NMDevice → String → Option NMDevice
  | [], _ => none
  | d :: t, mac => if d.mac_address = mac then some d else findFirst t mac

/-- The in-place mutation of that first matching device. -/
def updateFirst (mac : String) (f : NMDevice → NMDevice) : List NMDevice → List NMDevice
  | [] => []
  | d :: t => if d.mac_address = mac then f d :: t else d :: updateFirst mac f t

/-- One iteration of the host loop of process_scan_results of
network_monitor.py: on an up host, take the uppercased MAC (raising if
the addresses key is missing), fall back to the ARP table when it is
UNKNOWN, resolve the vendor from the per-host nmap vendor dict when a
MAC is available; a host still lacking a MAC is appended to the unknown
list as a Device with mac_address UNKNOWN, and otherwise the host
updates the first matching known device or is appended as unknown. -/
def psrHost (arp : String → Option String) (st : PSRState) (h : NMHost) : Except Unit PSRState :=
  if h.state = "up" then
    match h.addresses with
    | none => .error ()
    | some addrs =>
      let mac0 := pyUpper (addrs.mac.getD "UNKNOWN")
      let hostname := match h.hostnames with
        | [] => "Unknown"
        | n :: _ => n
      let mac := if mac0 = "UNKNOWN" then
          match arp h.host with
          | some m => if m = "" then "UNKNOWN" else m
          | none => "UNKNOWN"
        else mac0
      let vendor : Option String :=
        if mac = "UNKNOWN" then none else some ((dlookup h.vendorTable mac).getD "Unknown")
      if mac = "UNKNOWN" then
        .ok { st with unknown := st.unknown ++
          [{ device_name := "Unknown", mac_address := "UNKNOWN", device_type := "Unknown"
             hostname := hostname, state := "up", known := false, vendor := vendor }] }
      else
        match findFirst st.known mac with
        | some kd =>
          let kd2 := { kd with hostname := hostname, state := "up", vendor := vendor }
          .ok { st with
                known := updateFirst mac
                  (fun d => { d with hostname := hostname, state := "up", vendor := vendor })
                  st.known
                connected := st.connected ++ [kd2] }
        | none =>
          .ok { st with unknown := st.unknown ++
            [{ device_name := "Unknown", mac_address := mac, device_type := "Unknown"
               hostname := hostname, state := "up", known := false, vendor := vendor }] }
  else .ok st

/-- The host loop of process_scan_results. -/
def psrRun (arp : String → Option String) : List NMHost → PSRState → Except Unit PSRState
  | [], st => .ok st
  | h :: t, st =>
    match psrHost arp st h with
    | .error e => .error e
    | .ok st2 => psrRun arp t st2

/-- process_scan_results of network_monitor.py: returns the pair
(connected_devices, unknown_devices). -/
def process_scan_results (arp : String → Option String) (hosts : List NMHost)
    (known_devices : List NMDevice) : Except Unit (List NMDevice × List NMDevice) :=
  match psrRun arp hosts { known := known_devices, connected := [], unknown := [] } with
  | .error e => .error e
  | .ok st => .ok (st.connected, st.unknown)

/-- A dict whose every value carries its own key (under the given key
projection). The dicts the sources build satisfy this, because the key
is always taken from the stored value. -/
def KeyCoherent {α : Type} (key : α → String) (d : List (String × α)) : Prop :=
  ∀ p ∈ d, key p.2 = p.1


theorem dlookup_dictInsert_self {α : Type} (d : List (String × α)) (k : String) (v : α) :
    dlookup (dictInsert d k v) k = some v := by
  induction d with
  | nil =>
    show dlookup [(k, v)] k = some v
    simp [dlookup]
  | cons p r ih =>
    show dlookup (if p.1 = k then (k, v) :: r else p :: dictInsert r k v) k = some v
    by_cases hp : p.1 = k
    · rw [if_pos hp]
      show (if k = k then some v else dlookup r k) = some v
      rw [if_pos rfl]
    · rw [if_neg hp]
      show (if p.1 = k then some p.2 else dlookup (dictInsert r k v) k) = some v
      rw [if_neg hp]
      exact ih

theorem dlookup_dictInsert_ne {α : Type} (d : List (String × α)) (k k2 : String) (v : α)
    (h : k2 ≠ k) : dlookup (dictInsert d k v) k2 = dlookup d k2 := by
  have hk : ¬ k = k2 := fun he => h he.symm
  induction d with
  | nil =>
    show dlookup [(k, v)] k2 = none
    show (if k = k2 then some v else none) = none
    rw [if_neg hk]
  | cons p r ih =>
    show dlookup (if p.1 = k then (k, v) :: r else p :: dictInsert r k v) k2 =
      dlookup (p :: r) k2
    by_cases hp : p.1 = k
    · rw [if_pos hp]
      show (if k = k2 then some v else dlookup r k2) = if p.1 = k2 then some p.2 else dlookup r k2
      rw [if_neg hk, if_neg (hp ▸ hk)]
    · rw [if_neg hp]
      show (if p.1 = k2 then some p.2 else dlookup (dictInsert r k v) k2) =
        if p.1 = k2 then some p.2 else dlookup r k2
      by_cases hp2 : p.1 = k2
      · rw [if_pos hp2, if_pos hp2]
      · rw [if_neg hp2, if_neg hp2, ih]

theorem dkeys_dictInsert_of_mem {α : Type} (d : List (String × α)) (k : String) (v : α)
    (h : (dlookup d k).isSome) : dkeys (dictInsert d k v) = dkeys d := by
  induction d with
  | nil => simp [dlookup] at h
  | cons p r ih =>
    show dkeys (if p.1 = k then (k, v) :: r else p :: dictInsert r k v) = dkeys (p :: r)
    by_cases hp : p.1 = k
    · rw [if_pos hp]
      show k :: dkeys r = p.1 :: dkeys r
      rw [hp]
    · rw [if_neg hp]
      show p.1 :: dkeys (dictInsert r k v) = p.1 :: dkeys r
      have h2 : (if p.1 = k then some p.2 else dlookup r k).isSome = true := h
      rw [if_neg hp] at h2
      rw [ih h2]

theorem dlookup_isSome_iff {α : Type} (d : List (String × α)) (k : String) :
    (dlookup d k).isSome ↔ k ∈ dkeys d := by
  induction d with
  | nil => simp [dlookup, dkeys]
  | cons p r ih =>
    show (if p.1 = k then some p.2 else dlookup r k).isSome ↔ k ∈ p.1 :: dkeys r
    by_cases hp : p.1 = k
    · rw [if_pos hp, hp]
      simp
    · rw [if_neg hp]
      rw [List.mem_cons, ih]
      constructor
      · exact Or.inr
      · rintro (he | hm)
        · exact absurd he.symm hp
        · exact hm

theorem dlookup_eq_none_iff {α : Type} (d : List (String × α)) (k : String) :
    dlookup d k = none ↔ k ∉ dkeys d := by
  rw [← dlookup_isSome_iff]
  cases dlookup d k <;> simp

theorem dlookup_mem {α : Type} {d : List (String × α)} {k : String} {v : α}
    (h : dlookup d k = some v) : (k, v) ∈ d := by
  induction d with
  | nil => simp [dlookup] at h
  | cons p r ih =>
    have h2 : (if p.1 = k then some p.2 else dlookup r k) = some v := h
    by_cases hp : p.1 = k
    · rw [if_pos hp] at h2
      injection h2 with h2
      show (k, v) ∈ p :: r
      subst hp
      subst h2
      simp
    · rw [if_neg hp] at h2
      exact List.mem_cons_of_mem _ (ih h2)

theorem mem_dlookup {α : Type} {d : List (String × α)} {k : String} {v : α}
    (hnd : (dkeys d).Nodup) (h : (k, v) ∈ d) : dlookup d k = some v := by
  induction d with
  | nil => simp at h
  | cons p r ih =>
    have hnd2 : p.1 ∉ dkeys r ∧ (dkeys r).Nodup := by
      have hc : (p.1 :: dkeys r).Nodup := hnd
      exact ⟨(List.nodup_cons.mp hc).1, (List.nodup_cons.mp hc).2⟩
    show (if p.1 = k then some p.2 else dlookup r k) = some v
    rcases List.mem_cons.mp h with h1 | h1
    · rw [← h1]
      rw [if_pos rfl]
    · have hk : ¬ p.1 = k := by
        intro he
        exact hnd2.1 (he ▸ (List.mem_map.mpr ⟨(k, v), h1, rfl⟩))
      rw [if_neg hk]
      exact ih hnd2.2 h1

theorem keyCoherent_dictInsert {α : Type} {key : α → String} {d : List (String × α)}
    {k : String} {v : α} (hd : KeyCoherent key d) (hv : key v = k) :
    KeyCoherent key (dictInsert d k v) := by
  induction d with
  | nil =>
    intro p hp
    have hp2 : p ∈ [(k, v)] := hp
    simp at hp2
    subst hp2
    exact hv
  | cons q r ih =>
    intro p hp
    have hp2 : p ∈ if q.1 = k then (k, v) :: r else q :: dictInsert r k v := hp
    by_cases hq : q.1 = k
    · rw [if_pos hq] at hp2
      rcases List.mem_cons.mp hp2 with h1 | h1
      · subst h1
        exact hv
      · exact hd p (List.mem_cons_of_mem _ h1)
    · rw [if_neg hq] at hp2
      rcases List.mem_cons.mp hp2 with h1 | h1
      · subst h1
        exact hd p (List.mem_cons_self _ _)
      · exact ih (fun q2 hq2 => hd q2 (List.mem_cons_of_mem _ hq2)) p h1

theorem mem_dkeys_dictInsert {α : Type} (d : List (String × α)) (k : String) (v : α)
    (m : String) : m ∈ dkeys (dictInsert d k v) ↔ m ∈ dkeys d ∨ m = k := by
  induction d with
  | nil =>
    show m ∈ [k] ↔ m ∈ ([] : List String) ∨ m = k
    simp
  | cons p r ih =>
    show m ∈ dkeys (if p.1 = k then (k, v) :: r else p :: dictInsert r k v) ↔
      m ∈ p.1 :: dkeys r ∨ m = k
    by_cases hp : p.1 = k
    · rw [if_pos hp]
      show m ∈ k :: dkeys r ↔ _
      rw [List.mem_cons, List.mem_cons]
      subst hp
      tauto
    · rw [if_neg hp]
      show m ∈ p.1 :: dkeys (dictInsert r k v) ↔ _
      rw [List.mem_cons, List.mem_cons, ih]
      tauto

theorem nodup_dkeys_dictInsert {α : Type} {d : List (String × α)} (k : String) (v : α)
    (hd : (dkeys d).Nodup) : (dkeys (dictInsert d k v)).Nodup := by
  induction d with
  | nil => simp [dictInsert, dkeys]
  | cons p r ih =>
    have hd2 : p.1 ∉ dkeys r ∧ (dkeys r).Nodup := by
      have hc : (p.1 :: dkeys r).Nodup := hd
      exact ⟨(List.nodup_cons.mp hc).1, (List.nodup_cons.mp hc).2⟩
    show (dkeys (if p.1 = k then (k, v) :: r else p :: dictInsert r k v)).Nodup
    by_cases hp : p.1 = k
    · rw [if_pos hp]
      show (k :: dkeys r).Nodup
      rw [List.nodup_cons]
      exact ⟨hp ▸ hd2.1, hd2.2⟩
    · rw [if_neg hp]
      show (p.1 :: dkeys (dictInsert r k v)).Nodup
      rw [List.nodup_cons]
      refine ⟨?_, ih hd2.2⟩
      intro hmem
      rcases (mem_dkeys_dictInsert r k v p.1).mp hmem with h | h
      · exact hd2.1 h
      · exact hp h


theorem loadGo_nodup (rows : List DBRow) : ∀ acc : List (String × Device),
    (dkeys acc).Nodup → (dkeys (loadGo acc rows)).Nodup := by
  induction rows with
  | nil => intro acc ha; exact ha
  | cons row rest ih =>
    intro acc ha
    exact ih _ (nodup_dkeys_dictInsert _ _ ha)

theorem load_all_devices_nodup (rows : List DBRow) :
    (dkeys (load_all_devices rows)).Nodup :=
  loadGo_nodup rows [] (by simp [dkeys])

theorem loadGo_coherent (rows : List DBRow) : ∀ acc : List (String × Device),
    KeyCoherent Device.mac_address acc →
    KeyCoherent Device.mac_address (loadGo acc rows) := by
  induction rows with
  | nil => intro acc ha; exact ha
  | cons row rest ih =>
    intro acc ha
    exact ih _ (keyCoherent_dictInsert ha rfl)

theorem load_all_devices_coherent (rows : List DBRow) :
    KeyCoherent Device.mac_address (load_all_devices rows) :=
  loadGo_coherent rows [] (by intro p hp; simp at hp)

theorem knownGo_nodup (devs : List DMDevice) : ∀ acc : List (String × DMDevice),
    (dkeys acc).Nodup → (dkeys (knownGo acc devs)).Nodup := by
  induction devs with
  | nil => intro acc ha; exact ha
  | cons d rest ih =>
    intro acc ha
    exact ih _ (nodup_dkeys_dictInsert _ _ ha)

theorem mkKnownDict_nodup (devs : List DMDevice) : (dkeys (mkKnownDict devs)).Nodup :=
  knownGo_nodup devs [] (by simp [dkeys])

theorem knownGo_coherent (devs : List DMDevice) : ∀ acc : List (String × DMDevice),
    KeyCoherent DMDevice.mac_address acc →
    KeyCoherent DMDevice.mac_address (knownGo acc devs) := by
  induction devs with
  | nil => intro acc ha; exact ha
  | cons d rest ih =>
    intro acc ha
    exact ih _ (keyCoherent_dictInsert ha rfl)

theorem mkKnownDict_coherent (devs : List DMDevice) :
    KeyCoherent DMDevice.mac_address (mkKnownDict devs) :=
  knownGo_coherent devs [] (by intro p hp; simp at hp)

theorem foundAddresses_nil : foundAddresses [] = [] := rfl

theorem foundAddresses_cons (h : HostEntry) (t : Snapshot) :
    foundAddresses (h :: t) = hostMacs h ++ foundAddresses t := by
  simp [foundAddresses]

/-- The Device an existing registry entry is replaced with in the host
loop of scan_and_process. -/
def updatedDev (dev0 : Device) (ip : String) (ports : List OpenPort) : Device :=
  { dev0 with state := "up", ip_address := ip, open_ports := ports }

/-- The brand-new Device scan_and_process builds for an unregistered MAC. -/
def freshDev (mac ip vendor : String) (ports : List OpenPort) : Device :=
  { mac_address := mac, ip_address := ip, vendor := vendor, description := none
    known := false, state := "up", first_seen := none, last_seen := none
    open_ports := ports }

theorem processHost_cases (gv : String → String) (st : SAPState) (h : HostEntry)
    (st2 : SAPState) (hh : processHost gv st h = .ok st2) :
    (st2 = st ∧ hostMacs h = []) ∨
    (∃ mac ip, hostMacs h = [mac] ∧
      ((∃ dev0, dlookup st.all_devices mac = some dev0 ∧
        st2 = { all_devices := dictInsert st.all_devices mac
                  (updatedDev dev0 ip (hostOpenPorts h))
                found_macs := st.found_macs ++ [mac]
                upserts := st.upserts ++ [updatedDev dev0 ip (hostOpenPorts h)]
                vendor_calls := st.vendor_calls }) ∨
       (dlookup st.all_devices mac = none ∧
        st2 = { all_devices := st.all_devices
                found_macs := st.found_macs ++ [mac]
                upserts := st.upserts ++ [freshDev mac ip (gv mac) (hostOpenPorts h)]
                vendor_calls := st.vendor_calls ++ [mac] }))) := by
  unfold processHost at hh
  unfold hostMacs
  by_cases hup : h.state = "up"
  · rw [if_pos hup] at hh
    rw [if_pos hup]
    cases ha : h.addresses with
    | none =>
      rw [ha] at hh
      exact absurd hh (by simp)
    | some addrs =>
      rw [ha] at hh
      dsimp only at hh ⊢
      by_cases hm : pyUpper (addrs.mac.getD "UNKNOWN") = "UNKNOWN"
      · rw [if_pos hm] at hh
        injection hh with hh
        left
        rw [if_pos hm]
        exact ⟨hh.symm, rfl⟩
      · rw [if_neg hm] at hh
        right
        refine ⟨pyUpper (addrs.mac.getD "UNKNOWN"), addrs.ipv4.getD "Unknown",
          by rw [if_neg hm], ?_⟩
        cases hd : dlookup st.all_devices (pyUpper (addrs.mac.getD "UNKNOWN")) with
        | some dev0 =>
          rw [hd] at hh
          injection hh with hh
          exact Or.inl ⟨dev0, rfl, hh.symm⟩
        | none =>
          rw [hd] at hh
          injection hh with hh
          exact Or.inr ⟨rfl, hh.symm⟩
  · rw [if_neg hup] at hh
    rw [if_neg hup]
    injection hh with hh
    left
    exact ⟨hh.symm, rfl⟩


theorem dlookup_none_of_keys_eq {α : Type} {d d2 : List (String × α)}
    (hk : dkeys d = dkeys d2) {m : String} (h : dlookup d m = none) :
    dlookup d2 m = none := by
  rw [dlookup_eq_none_iff] at h ⊢
  rw [← hk]
  exact h

theorem processHost_found (gv : String → String) (st : SAPState) (h : HostEntry)
    (st2 : SAPState) (hh : processHost gv st h = .ok st2) :
    st2.found_macs = st.found_macs ++ hostMacs h := by
  rcases processHost_cases gv st h st2 hh with ⟨h1, h2⟩ |
    ⟨mac, ip, hm, ⟨dev0, hd, h1⟩ | ⟨hd, h1⟩⟩
  · rw [h1, h2, List.append_nil]
  · rw [h1, hm]
  · rw [h1, hm]

theorem processHost_keys (gv : String → String) (st : SAPState) (h : HostEntry)
    (st2 : SAPState) (hh : processHost gv st h = .ok st2) :
    dkeys st2.all_devices = dkeys st.all_devices := by
  rcases processHost_cases gv st h st2 hh with ⟨h1, h2⟩ |
    ⟨mac, ip, hm, ⟨dev0, hd, h1⟩ | ⟨hd, h1⟩⟩
  · rw [h1]
  · rw [h1]
    exact dkeys_dictInsert_of_mem _ _ _ (by rw [hd]; rfl)
  · rw [h1]

theorem processHost_lookup_nf (gv : String → String) (st : SAPState) (h : HostEntry)
    (st2 : SAPState) (k : String) (hh : processHost gv st h = .ok st2)
    (hk : k ∉ hostMacs h) :
    dlookup st2.all_devices k = dlookup st.all_devices k := by
  rcases processHost_cases gv st h st2 hh with ⟨h1, h2⟩ |
    ⟨mac, ip, hm, ⟨dev0, hd, h1⟩ | ⟨hd, h1⟩⟩
  · rw [h1]
  · rw [h1]
    refine dlookup_dictInsert_ne _ _ _ _ ?_
    rw [hm] at hk
    simp at hk
    exact hk
  · rw [h1]

theorem processHost_vendor (gv : String → String) (st : SAPState) (h : HostEntry)
    (st2 : SAPState) (hh : processHost gv st h = .ok st2) (k : String) :
    (dlookup st2.all_devices k).map Device.vendor =
    (dlookup st.all_devices k).map Device.vendor := by
  rcases processHost_cases gv st h st2 hh with ⟨h1, h2⟩ |
    ⟨mac, ip, hm, ⟨dev0, hd, h1⟩ | ⟨hd, h1⟩⟩
  · rw [h1]
  · rw [h1]
    by_cases hkm : k = mac
    · subst hkm
      show (dlookup (dictInsert st.all_devices k _) k).map Device.vendor = _
      rw [dlookup_dictInsert_self, hd]
      rfl
    · show (dlookup (dictInsert st.all_devices mac _) k).map Device.vendor = _
      rw [dlookup_dictInsert_ne _ _ _ _ hkm]
  · rw [h1]

theorem processHost_coherent (gv : String → String) (st : SAPState) (h : HostEntry)
    (st2 : SAPState) (hh : processHost gv st h = .ok st2)
    (hc : KeyCoherent Device.mac_address st.all_devices) :
    KeyCoherent Device.mac_address st2.all_devices := by
  rcases processHost_cases gv st h st2 hh with ⟨h1, h2⟩ |
    ⟨mac, ip, hm, ⟨dev0, hd, h1⟩ | ⟨hd, h1⟩⟩
  · rw [h1]; exact hc
  · rw [h1]
    refine keyCoherent_dictInsert hc ?_
    exact hc (mac, dev0) (dlookup_mem hd)
  · rw [h1]; exact hc

theorem processHost_upserts (gv : String → String) (st : SAPState) (h : HostEntry)
    (st2 : SAPState) (hh : processHost gv st h = .ok st2)
    (hc : KeyCoherent Device.mac_address st.all_devices) :
    ∃ us, st2.upserts = st.upserts ++ us ∧ ∀ u ∈ us, u.mac_address ∈ hostMacs h := by
  rcases processHost_cases gv st h st2 hh with ⟨h1, h2⟩ |
    ⟨mac, ip, hm, ⟨dev0, hd, h1⟩ | ⟨hd, h1⟩⟩
  · refine ⟨[], by rw [h1, List.append_nil], by simp⟩
  · refine ⟨[updatedDev dev0 ip (hostOpenPorts h)], by rw [h1], ?_⟩
    intro u hu
    simp at hu
    subst hu
    rw [hm]
    simp only [List.mem_singleton]
    exact hc (mac, dev0) (dlookup_mem hd)
  · refine ⟨[freshDev mac ip (gv mac) (hostOpenPorts h)], by rw [h1], ?_⟩
    intro u hu
    simp at hu
    subst hu
    rw [hm]
    simp [freshDev]

theorem processHost_vcalls (gv : String → String) (st : SAPState) (h : HostEntry)
    (st2 : SAPState) (hh : processHost gv st h = .ok st2) :
    ∃ vs, st2.vendor_calls = st.vendor_calls ++ vs ∧
      ∀ m ∈ vs, dlookup st.all_devices m = none ∧ m ∈ hostMacs h := by
  rcases processHost_cases gv st h st2 hh with ⟨h1, h2⟩ |
    ⟨mac, ip, hm, ⟨dev0, hd, h1⟩ | ⟨hd, h1⟩⟩
  · refine ⟨[], by rw [h1, List.append_nil], by simp⟩
  · refine ⟨[], by rw [h1, List.append_nil], by simp⟩
  · refine ⟨[mac], by rw [h1], ?_⟩
    intro m hmm
    simp at hmm
    subst hmm
    rw [hm]
    exact ⟨hd, by simp⟩

theorem sapRun_cons (gv : String → String) (h : HostEntry) (t : Snapshot)
    (st st2 : SAPState) (hh : sapRun gv (h :: t) st = .ok st2) :
    ∃ st1, processHost gv st h = .ok st1 ∧ sapRun gv t st1 = .ok st2 := by
  unfold sapRun at hh
  cases hp : processHost gv st h with
  | error e =>
    rw [hp] at hh
    exact absurd hh (by simp)
  | ok st1 =>
    rw [hp] at hh
    exact ⟨st1, rfl, hh⟩

theorem sapRun_found (gv : String → String) : ∀ (snap : Snapshot) (st st2 : SAPState),
    sapRun gv snap st = .ok st2 →
    st2.found_macs = st.found_macs ++ foundAddresses snap := by
  intro snap
  induction snap with
  | nil =>
    intro st st2 hh
    injection hh with hh
    rw [← hh, foundAddresses_nil, List.append_nil]
  | cons h t ih =>
    intro st st2 hh
    rcases sapRun_cons gv h t st st2 hh with ⟨st1, h1, h2⟩
    rw [ih st1 st2 h2, processHost_found gv st h st1 h1, foundAddresses_cons,
      List.append_assoc]

theorem sapRun_keys (gv : String → String) : ∀ (snap : Snapshot) (st st2 : SAPState),
    sapRun gv snap st = .ok st2 →
    dkeys st2.all_devices = dkeys st.all_devices := by
  intro snap
  induction snap with
  | nil =>
    intro st st2 hh
    injection hh with hh
    rw [hh]
  | cons h t ih =>
    intro st st2 hh
    rcases sapRun_cons gv h t st st2 hh with ⟨st1, h1, h2⟩
    rw [ih st1 st2 h2, processHost_keys gv st h st1 h1]

theorem sapRun_lookup_nf (gv : String → String) : ∀ (snap : Snapshot) (st st2 : SAPState)
    (k : String), sapRun gv snap st = .ok st2 → k ∉ foundAddresses snap →
    dlookup st2.all_devices k = dlookup st.all_devices k := by
  intro snap
  induction snap with
  | nil =>
    intro st st2 k hh _
    injection hh with hh
    rw [hh]
  | cons h t ih =>
    intro st st2 k hh hk
    rw [foundAddresses_cons, List.mem_append] at hk
    push_neg at hk
    rcases sapRun_cons gv h t st st2 hh with ⟨st1, h1, h2⟩
    rw [ih st1 st2 k h2 hk.2, processHost_lookup_nf gv st h st1 k h1 hk.1]

theorem sapRun_vendor (gv : String → String) : ∀ (snap : Snapshot) (st st2 : SAPState),
    sapRun gv snap st = .ok st2 → ∀ k : String,
    (dlookup st2.all_devices k).map Device.vendor =
    (dlookup st.all_devices k).map Device.vendor := by
  intro snap
  induction snap with
  | nil =>
    intro st st2 hh k
    injection hh with hh
    rw [hh]
  | cons h t ih =>
    intro st st2 hh k
    rcases sapRun_cons gv h t st st2 hh with ⟨st1, h1, h2⟩
    rw [ih st1 st2 h2 k, processHost_vendor gv st h st1 h1 k]

theorem sapRun_coherent (gv : String → String) : ∀ (snap : Snapshot) (st st2 : SAPState),
    sapRun gv snap st = .ok st2 →
    KeyCoherent Device.mac_address st.all_devices →
    KeyCoherent Device.mac_address st2.all_devices := by
  intro snap
  induction snap with
  | nil =>
    intro st st2 hh hc
    injection hh with hh
    rw [← hh]
    exact hc
  | cons h t ih =>
    intro st st2 hh hc
    rcases sapRun_cons gv h t st st2 hh with ⟨st1, h1, h2⟩
    exact ih st1 st2 h2 (processHost_coherent gv st h st1 h1 hc)

theorem sapRun_upserts (gv : String → String) : ∀ (snap : Snapshot) (st st2 : SAPState),
    sapRun gv snap st = .ok st2 →
    KeyCoherent Device.mac_address st.all_devices →
    ∃ us, st2.upserts = st.upserts ++ us ∧
      ∀ u ∈ us, u.mac_address ∈ foundAddresses snap := by
  intro snap
  induction snap with
  | nil =>
    intro st st2 hh _
    injection hh with hh
    exact ⟨[], by rw [← hh, List.append_nil], by simp⟩
  | cons h t ih =>
    intro st st2 hh hc
    rcases sapRun_cons gv h t st st2 hh with ⟨st1, h1, h2⟩
    rcases processHost_upserts gv st h st1 h1 hc with ⟨us1, hu1, hm1⟩
    rcases ih st1 st2 h2 (processHost_coherent gv st h st1 h1 hc) with ⟨us2, hu2, hm2⟩
    refine ⟨us1 ++ us2, by rw [hu2, hu1, List.append_assoc], ?_⟩
    intro u hu
    rw [foundAddresses_cons, List.mem_append]
    rcases List.mem_append.mp hu with h3 | h3
    · exact Or.inl (hm1 u h3)
    · exact Or.inr (hm2 u h3)

theorem sapRun_vcalls (gv : String → String) : ∀ (snap : Snapshot) (st st2 : SAPState),
    sapRun gv snap st = .ok st2 →
    ∃ vs, st2.vendor_calls = st.vendor_calls ++ vs ∧
      ∀ m ∈ vs, dlookup st.all_devices m = none ∧ m ∈ foundAddresses snap := by
  intro snap
  induction snap with
  | nil =>
    intro st st2 hh
    injection hh with hh
    exact ⟨[], by rw [← hh, List.append_nil], by simp⟩
  | cons h t ih =>
    intro st st2 hh
    rcases sapRun_cons gv h t st st2 hh with ⟨st1, h1, h2⟩
    rcases processHost_vcalls gv st h st1 h1 with ⟨vs1, hv1, hm1⟩
    rcases ih st1 st2 h2 with ⟨vs2, hv2, hm2⟩
    refine ⟨vs1 ++ vs2, by rw [hv2, hv1, List.append_assoc], ?_⟩
    intro m hm
    rw [foundAddresses_cons, List.mem_append]
    rcases List.mem_append.mp hm with h3 | h3
    · exact ⟨(hm1 m h3).1, Or.inl (hm1 m h3).2⟩
    · refine ⟨?_, Or.inr (hm2 m h3).2⟩
      exact dlookup_none_of_keys_eq (processHost_keys gv st h st1 h1) (hm2 m h3).1


theorem downLoop_keys (f : List String) : ∀ devs : List (String × Device),
    dkeys (downLoop f devs).1 = dkeys devs := by
  intro devs
  induction devs with
  | nil => rfl
  | cons p rest ih =>
    rcases p with ⟨k, d⟩
    show dkeys (let r := downLoop f rest;
      if k ∈ f then ((k, d) :: r.1, r.2)
      else if d.state = "down" then ((k, d) :: r.1, r.2)
      else ((k, downDevice d) :: r.1, downDevice d :: r.2)).1 = dkeys ((k, d) :: rest)
    by_cases hk : k ∈ f
    · rw [if_pos hk]
      show k :: dkeys (downLoop f rest).1 = k :: dkeys rest
      rw [ih]
    · rw [if_neg hk]
      by_cases hs : d.state = "down"
      · rw [if_pos hs]
        show k :: dkeys (downLoop f rest).1 = k :: dkeys rest
        rw [ih]
      · rw [if_neg hs]
        show k :: dkeys (downLoop f rest).1 = k :: dkeys rest
        rw [ih]

theorem downLoop_state (f : List String) : ∀ (devs : List (String × Device))
    (p : String × Device), p ∈ (downLoop f devs).1 → p.1 ∉ f → p.2.state = "down" := by
  intro devs
  induction devs with
  | nil =>
    intro p hp
    exact absurd hp (by simp [downLoop])
  | cons q rest ih =>
    rcases q with ⟨k, d⟩
    intro p hp hf
    by_cases hk : k ∈ f
    · have hp2 : p ∈ (k, d) :: (downLoop f rest).1 := by
        have he : (downLoop f ((k, d) :: rest)).1 = (k, d) :: (downLoop f rest).1 := by
          show (let r := downLoop f rest;
            if k ∈ f then ((k, d) :: r.1, r.2)
            else if d.state = "down" then ((k, d) :: r.1, r.2)
            else ((k, downDevice d) :: r.1, downDevice d :: r.2)).1 = _
          rw [if_pos hk]
        rw [he] at hp
        exact hp
      rcases List.mem_cons.mp hp2 with h1 | h1
      · subst h1
        exact absurd hk hf
      · exact ih p h1 hf
    · by_cases hs : d.state = "down"
      · have hp2 : p ∈ (k, d) :: (downLoop f rest).1 := by
          have he : (downLoop f ((k, d) :: rest)).1 = (k, d) :: (downLoop f rest).1 := by
            show (let r := downLoop f rest;
              if k ∈ f then ((k, d) :: r.1, r.2)
              else if d.state = "down" then ((k, d) :: r.1, r.2)
              else ((k, downDevice d) :: r.1, downDevice d :: r.2)).1 = _
            rw [if_neg hk, if_pos hs]
          rw [he] at hp
          exact hp
        rcases List.mem_cons.mp hp2 with h1 | h1
        · subst h1
          exact hs
        · exact ih p h1 hf
      · have hp2 : p ∈ (k, downDevice d) :: (downLoop f rest).1 := by
          have he : (downLoop f ((k, d) :: rest)).1 = (k, downDevice d) :: (downLoop f rest).1 := by
            show (let r := downLoop f rest;
              if k ∈ f then ((k, d) :: r.1, r.2)
              else if d.state = "down" then ((k, d) :: r.1, r.2)
              else ((k, downDevice d) :: r.1, downDevice d :: r.2)).1 = _
            rw [if_neg hk, if_neg hs]
          rw [he] at hp
          exact hp
        rcases List.mem_cons.mp hp2 with h1 | h1
        · subst h1
          rfl
        · exact ih p h1 hf

theorem downLoop_vendor (f : List String) : ∀ (devs : List (String × Device)) (k : String),
    (dlookup (downLoop f devs).1 k).map Device.vendor =
    (dlookup devs k).map Device.vendor := by
  intro devs
  induction devs with
  | nil => intro k; rfl
  | cons q rest ih =>
    rcases q with ⟨k0, d⟩
    intro k
    have hv : ∀ d2 : Device, (downLoop f ((k0, d) :: rest)).1 = (k0, d2) :: (downLoop f rest).1 →
        d2.vendor = d.vendor →
        (dlookup (downLoop f ((k0, d) :: rest)).1 k).map Device.vendor =
        (dlookup ((k0, d) :: rest) k).map Device.vendor := by
      intro d2 he hvd
      rw [he]
      show (if k0 = k then some d2 else dlookup (downLoop f rest).1 k).map Device.vendor =
        (if k0 = k then some d else dlookup rest k).map Device.vendor
      by_cases hk : k0 = k
      · rw [if_pos hk, if_pos hk]
        simp [hvd]
      · rw [if_neg hk, if_neg hk, ih k]
    by_cases hk : k0 ∈ f
    · refine hv d ?_ rfl
      show (let r := downLoop f rest;
        if k0 ∈ f then ((k0, d) :: r.1, r.2)
        else if d.state = "down" then ((k0, d) :: r.1, r.2)
        else ((k0, downDevice d) :: r.1, downDevice d :: r.2)).1 = _
      rw [if_pos hk]
    · by_cases hs : d.state = "down"
      · refine hv d ?_ rfl
        show (let r := downLoop f rest;
          if k0 ∈ f then ((k0, d) :: r.1, r.2)
          else if d.state = "down" then ((k0, d) :: r.1, r.2)
          else ((k0, downDevice d) :: r.1, downDevice d :: r.2)).1 = _
        rw [if_neg hk, if_pos hs]
      · refine hv (downDevice d) ?_ rfl
        show (let r := downLoop f rest;
          if k0 ∈ f then ((k0, d) :: r.1, r.2)
          else if d.state = "down" then ((k0, d) :: r.1, r.2)
          else ((k0, downDevice d) :: r.1, downDevice d :: r.2)).1 = _
        rw [if_neg hk, if_neg hs]

theorem downLoop_ups_spec (f : List String) : ∀ (devs : List (String × Device))
    (u : Device), u ∈ (downLoop f devs).2 →
    ∃ p, p ∈ devs ∧ p.1 ∉ f ∧ p.2.state ≠ "down" ∧ u = downDevice p.2 := by
  intro devs
  induction devs with
  | nil =>
    intro u hu
    exact absurd hu (by simp [downLoop])
  | cons q rest ih =>
    rcases q with ⟨k, d⟩
    intro u hu
    by_cases hk : k ∈ f
    · have he : (downLoop f ((k, d) :: rest)).2 = (downLoop f rest).2 := by
        show (let r := downLoop f rest;
          if k ∈ f then ((k, d) :: r.1, r.2)
          else if d.state = "down" then ((k, d) :: r.1, r.2)
          else ((k, downDevice d) :: r.1, downDevice d :: r.2)).2 = _
        rw [if_pos hk]
      rw [he] at hu
      rcases ih u hu with ⟨p, hp, h1, h2, h3⟩
      exact ⟨p, List.mem_cons_of_mem _ hp, h1, h2, h3⟩
    · by_cases hs : d.state = "down"
      · have he : (downLoop f ((k, d) :: rest)).2 = (downLoop f rest).2 := by
          show (let r := downLoop f rest;
            if k ∈ f then ((k, d) :: r.1, r.2)
            else if d.state = "down" then ((k, d) :: r.1, r.2)
            else ((k, downDevice d) :: r.1, downDevice d :: r.2)).2 = _
          rw [if_neg hk, if_pos hs]
        rw [he] at hu
        rcases ih u hu with ⟨p, hp, h1, h2, h3⟩
        exact ⟨p, List.mem_cons_of_mem _ hp, h1, h2, h3⟩
      · have he : (downLoop f ((k, d) :: rest)).2 = downDevice d :: (downLoop f rest).2 := by
          show (let r := downLoop f rest;
            if k ∈ f then ((k, d) :: r.1, r.2)
            else if d.state = "down" then ((k, d) :: r.1, r.2)
            else ((k, downDevice d) :: r.1, downDevice d :: r.2)).2 = _
          rw [if_neg hk, if_neg hs]
        rw [he] at hu
        rcases List.mem_cons.mp hu with h1 | h1
        · exact ⟨(k, d), List.mem_cons_self _ _, hk, hs, h1⟩
        · rcases ih u h1 with ⟨p, hp, h2, h3, h4⟩
          exact ⟨p, List.mem_cons_of_mem _ hp, h2, h3, h4⟩

theorem downLoop_ups_mem (f : List String) : ∀ (devs : List (String × Device))
    (k : String) (d : Device), (k, d) ∈ devs → k ∉ f → d.state ≠ "down" →
    downDevice d ∈ (downLoop f devs).2 := by
  intro devs
  induction devs with
  | nil =>
    intro k d hm
    exact absurd hm (by simp)
  | cons q rest ih =>
    rcases q with ⟨k0, d0⟩
    intro k d hm hf hs
    rcases List.mem_cons.mp hm with h1 | h1
    · injection h1 with h1a h1b
      subst h1a
      subst h1b
      have he : (downLoop f ((k, d) :: rest)).2 = downDevice d :: (downLoop f rest).2 := by
        show (let r := downLoop f rest;
          if k ∈ f then ((k, d) :: r.1, r.2)
          else if d.state = "down" then ((k, d) :: r.1, r.2)
          else ((k, downDevice d) :: r.1, downDevice d :: r.2)).2 = _
        rw [if_neg hf, if_neg hs]
      rw [he]
      exact List.mem_cons_self _ _
    · have hrest := ih k d h1 hf hs
      by_cases hk : k0 ∈ f
      · have he : (downLoop f ((k0, d0) :: rest)).2 = (downLoop f rest).2 := by
          show (let r := downLoop f rest;
            if k0 ∈ f then ((k0, d0) :: r.1, r.2)
            else if d0.state = "down" then ((k0, d0) :: r.1, r.2)
            else ((k0, downDevice d0) :: r.1, downDevice d0 :: r.2)).2 = _
          rw [if_pos hk]
        rw [he]
        exact hrest
      · by_cases hs0 : d0.state = "down"
        · have he : (downLoop f ((k0, d0) :: rest)).2 = (downLoop f rest).2 := by
            show (let r := downLoop f rest;
              if k0 ∈ f then ((k0, d0) :: r.1, r.2)
              else if d0.state = "down" then ((k0, d0) :: r.1, r.2)
              else ((k0, downDevice d0) :: r.1, downDevice d0 :: r.2)).2 = _
            rw [if_neg hk, if_pos hs0]
          rw [he]
          exact hrest
        · have he : (downLoop f ((k0, d0) :: rest)).2 = downDevice d0 :: (downLoop f rest).2 := by
            show (let r := downLoop f rest;
              if k0 ∈ f then ((k0, d0) :: r.1, r.2)
              else if d0.state = "down" then ((k0, d0) :: r.1, r.2)
              else ((k0, downDevice d0) :: r.1, downDevice d0 :: r.2)).2 = _
            rw [if_neg hk, if_neg hs0]
          rw [he]
          exact List.mem_cons_of_mem _ hrest

theorem scan_and_process_ok (gv : String → String) (snapshot : Snapshot)
    (all0 : List (String × Device)) (r : SAPResult)
    (hh : scan_and_process gv snapshot all0 = .ok r) :
    ∃ st, sapRun gv snapshot
        { all_devices := all0, found_macs := [], upserts := [], vendor_calls := [] } = .ok st ∧
      r.all_devices = (downLoop st.found_macs st.all_devices).1 ∧
      r.upserts = st.upserts ++ (downLoop st.found_macs st.all_devices).2 ∧
      r.found_macs = st.found_macs ∧ r.vendor_calls = st.vendor_calls := by
  unfold scan_and_process at hh
  cases hs : sapRun gv snapshot
      { all_devices := all0, found_macs := [], upserts := [], vendor_calls := [] } with
  | error e =>
    rw [hs] at hh
    exact absurd hh (by simp)
  | ok st =>
    rw [hs] at hh
    dsimp only at hh
    injection hh with hh
    exact ⟨st, rfl, by rw [← hh], by rw [← hh], by rw [← hh], by rw [← hh]⟩


/-- C1: in every successful reconciliation pass of scan_and_process on a
registry loaded from the devices table, the output device mapping has
exactly the keys of the loaded registry, and every device whose hardware
address is not among the addresses observed up in the snapshot
(foundAddresses) has state down in the output: a device absent from the
latest scan never retains state up. -/
theorem down_promotion (gv : String → String) (rows : List DBRow) (snap : Snapshot)
    (r : SAPResult) (hr : scan_cycle gv rows snap = .ok r) :
    dkeys r.all_devices = dkeys (load_all_devices rows) ∧
    ∀ p ∈ r.all_devices, p.1 ∉ foundAddresses snap → p.2.state = "down" := by
  rcases scan_and_process_ok gv snap (load_all_devices rows) r hr with
    ⟨st, hs, h1, h2, h3, h4⟩
  have hkeys := sapRun_keys gv snap _ st hs
  have hfound := sapRun_found gv snap _ st hs
  dsimp only at hkeys hfound
  rw [List.nil_append] at hfound
  constructor
  · rw [h1, downLoop_keys, hkeys]
  · intro p hp hf
    rw [h1] at hp
    refine downLoop_state st.found_macs st.all_devices p hp ?_
    rw [hfound]
    exact hf

/-- Concrete registry row used by the C1 witness: a known device that is
up in the store. -/
def wRowUp : DBRow :=
  { mac_address := "AA:BB:CC:DD:EE:FF", ip_address := "10.0.0.1", vendor := "Apple",
    description := none, known := true, state := "up", first_seen := some 5,
    last_seen := some 6, open_ports := [] }

/-- The C1 witness device after the empty snapshot sends it down. -/
def wDevC1 : Device :=
  { mac_address := "AA:BB:CC:DD:EE:FF", ip_address := "10.0.0.1", vendor := "Apple",
    description := none, known := true, state := "down", first_seen := some 5,
    last_seen := some 6, open_ports := [] }

/-- Result of the C1 witness cycle. -/
def wResDown : SAPResult :=
  { all_devices := [("AA:BB:CC:DD:EE:FF", wDevC1)], upserts := [wDevC1],
    found_macs := [], vendor_calls := [] }

theorem down_promotion_witness :
    scan_cycle (fun _ => "VendorW") [wRowUp] [] = .ok wResDown ∧
    (dkeys wResDown.all_devices = dkeys (load_all_devices [wRowUp]) ∧
      ∀ p ∈ wResDown.all_devices, p.1 ∉ foundAddresses [] → p.2.state = "down") :=
  ⟨by decide, down_promotion (fun _ => "VendorW") [wRowUp] [] wResDown (by decide)⟩

/-- C4: reconciling against a registry device whose hardware address is
absent from the snapshot issues a write exactly when the device is not
already down: if its state is down, no upsert carrying its address
occurs anywhere in the change set; if its state is not down, the device
set to down is in the change set. -/
theorem down_write_idempotence (gv : String → String) (rows : List DBRow) (snap : Snapshot)
    (r : SAPResult) (k : String) (d : Device) (hr : scan_cycle gv rows snap = .ok r)
    (hd : dlookup (load_all_devices rows) k = some d) (hk : k ∉ foundAddresses snap) :
    (d.state = "down" → ∀ u ∈ r.upserts, u.mac_address ≠ k) ∧
    (d.state ≠ "down" → downDevice d ∈ r.upserts) := by
  rcases scan_and_process_ok gv snap (load_all_devices rows) r hr with
    ⟨st, hs, h1, h2, h3, h4⟩
  have hfound := sapRun_found gv snap _ st hs
  have hkeys := sapRun_keys gv snap _ st hs
  dsimp only at hfound hkeys
  rw [List.nil_append] at hfound
  have hnd : (dkeys st.all_devices).Nodup := by
    rw [hkeys]
    exact load_all_devices_nodup rows
  have hcoh : KeyCoherent Device.mac_address st.all_devices :=
    sapRun_coherent gv snap _ st hs (load_all_devices_coherent rows)
  have hlook : dlookup st.all_devices k = some d := by
    rw [sapRun_lookup_nf gv snap _ st k hs hk]
    exact hd
  constructor
  · intro hdown u hu hmac
    rw [h2] at hu
    rcases List.mem_append.mp hu with hu1 | hu1
    · rcases sapRun_upserts gv snap _ st hs (load_all_devices_coherent rows) with
        ⟨us, hus, hmem⟩
      dsimp only at hus
      rw [List.nil_append] at hus
      rw [hus] at hu1
      exact hk (hmac ▸ hmem u hu1)
    · rcases downLoop_ups_spec st.found_macs st.all_devices u hu1 with
        ⟨p, hp, hpf, hps, hpu⟩
      have hpk : p.2.mac_address = p.1 := hcoh p hp
      have hup : u.mac_address = p.1 := by
        rw [hpu]
        exact hpk
      have hpk2 : p.1 = k := by rw [← hup, hmac]
      have hl2 : dlookup st.all_devices k = some p.2 := by
        rw [← hpk2]
        exact mem_dlookup hnd hp
      rw [hlook] at hl2
      injection hl2 with hl2
      rw [hl2] at hdown
      exact hps hdown
  · intro hnd2
    rw [h2]
    refine List.mem_append.mpr (Or.inr ?_)
    refine downLoop_ups_mem st.found_macs st.all_devices k d (dlookup_mem hlook) ?_ hnd2
    rw [hfound]
    exact hk

/-- Concrete registry row used by the C4 witness: already down. -/
def wRowDown : DBRow :=
  { mac_address := "AA:BB:CC:DD:EE:FF", ip_address := "10.0.0.1", vendor := "Apple",
    description := none, known := true, state := "down", first_seen := some 5,
    last_seen := some 6, open_ports := [] }

/-- The C4 witness device, as loaded from wRowDown. -/
def wDevDown : Device :=
  { mac_address := "AA:BB:CC:DD:EE:FF", ip_address := "10.0.0.1", vendor := "Apple",
    description := none, known := true, state := "down", first_seen := some 5,
    last_seen := some 6, open_ports := [] }

/-- Result of the C4 witness cycle: no write is issued for the absent,
already-down device. -/
def wResIdle : SAPResult :=
  { all_devices := [("AA:BB:CC:DD:EE:FF", wDevDown)], upserts := [],
    found_macs := [], vendor_calls := [] }

theorem down_write_idempotence_witness :
    scan_cycle (fun _ => "VendorW") [wRowDown] [] = .ok wResIdle ∧
    dlookup (load_all_devices [wRowDown]) "AA:BB:CC:DD:EE:FF" = some wDevDown ∧
    "AA:BB:CC:DD:EE:FF" ∉ foundAddresses [] ∧
    ((wDevDown.state = "down" →
        ∀ u ∈ wResIdle.upserts, u.mac_address ≠ "AA:BB:CC:DD:EE:FF") ∧
     (wDevDown.state ≠ "down" → downDevice wDevDown ∈ wResIdle.upserts)) :=
  ⟨by decide, by decide, by decide,
    down_write_idempotence (fun _ => "VendorW") [wRowDown] [] wResIdle
      "AA:BB:CC:DD:EE:FF" wDevDown (by decide) (by decide) (by decide)⟩


/-- The updated DMDevice merge_scan_results writes back for a known MAC. -/
def mergedDev (dev0 : DMDevice) (ip vendor : String) : DMDevice :=
  { dev0 with state := "up", ip_address := ip, vendor := vendor }

/-- The new unknown DMDevice merge_scan_results builds. -/
def newDMDev (mac ip vendor : String) : DMDevice :=
  { mac_address := mac, ip_address := ip, vendor := vendor, known := false, state := "up" }

theorem mergeHost_cases (gv : String → String) (st : MergeState) (h : HostEntry)
    (st2 : MergeState) (hh : mergeHost gv st h = .ok st2) :
    (st2 = st ∧ hostMacs h = []) ∨
    (∃ mac ip, hostMacs h = [mac] ∧
      ((∃ dev0, dlookup st.known_dict mac = some dev0 ∧
        st2 = { known_dict := dictInsert st.known_dict mac (mergedDev dev0 ip (gv mac))
                connected := st.connected ++ [mergedDev dev0 ip (gv mac)]
                unknown := st.unknown
                vendor_calls := st.vendor_calls ++ [mac] }) ∨
       (dlookup st.known_dict mac = none ∧
        st2 = { known_dict := st.known_dict
                connected := st.connected
                unknown := st.unknown ++ [newDMDev mac ip (gv mac)]
                vendor_calls := st.vendor_calls ++ [mac] }))) := by
  unfold mergeHost at hh
  unfold hostMacs
  by_cases hup : h.state = "up"
  · rw [if_pos hup] at hh
    rw [if_pos hup]
    cases ha : h.addresses with
    | none =>
      rw [ha] at hh
      exact absurd hh (by simp)
    | some addrs =>
      rw [ha] at hh
      dsimp only at hh ⊢
      by_cases hm : pyUpper (addrs.mac.getD "UNKNOWN") = "UNKNOWN"
      · rw [if_pos hm] at hh
        injection hh with hh
        left
        rw [if_pos hm]
        exact ⟨hh.symm, rfl⟩
      · rw [if_neg hm] at hh
        right
        refine ⟨pyUpper (addrs.mac.getD "UNKNOWN"), addrs.ipv4.getD "Unknown",
          by rw [if_neg hm], ?_⟩
        cases hd : dlookup st.known_dict (pyUpper (addrs.mac.getD "UNKNOWN")) with
        | some dev0 =>
          rw [hd] at hh
          injection hh with hh
          exact Or.inl ⟨dev0, rfl, hh.symm⟩
        | none =>
          rw [hd] at hh
          injection hh with hh
          exact Or.inr ⟨rfl, hh.symm⟩
  · rw [if_neg hup] at hh
    rw [if_neg hup]
    injection hh with hh
    left
    exact ⟨hh.symm, rfl⟩

theorem mergeHost_keys (gv : String → String) (st : MergeState) (h : HostEntry)
    (st2 : MergeState) (hh : mergeHost gv st h = .ok st2) :
    dkeys st2.known_dict = dkeys st.known_dict := by
  rcases mergeHost_cases gv st h st2 hh with ⟨h1, h2⟩ |
    ⟨mac, ip, hm, ⟨dev0, hd, h1⟩ | ⟨hd, h1⟩⟩
  · rw [h1]
  · rw [h1]
    exact dkeys_dictInsert_of_mem _ _ _ (by rw [hd]; rfl)
  · rw [h1]

theorem mergeHost_coherent (gv : String → String) (st : MergeState) (h : HostEntry)
    (st2 : MergeState) (hh : mergeHost gv st h = .ok st2)
    (hc : KeyCoherent DMDevice.mac_address st.known_dict) :
    KeyCoherent DMDevice.mac_address st2.known_dict := by
  rcases mergeHost_cases gv st h st2 hh with ⟨h1, h2⟩ |
    ⟨mac, ip, hm, ⟨dev0, hd, h1⟩ | ⟨hd, h1⟩⟩
  · rw [h1]; exact hc
  · rw [h1]
    refine keyCoherent_dictInsert hc ?_
    exact hc (mac, dev0) (dlookup_mem hd)
  · rw [h1]; exact hc

theorem mergeRun_cons (gv : String → String) (h : HostEntry) (t : Snapshot)
    (st st2 : MergeState) (hh : mergeRun gv (h :: t) st = .ok st2) :
    ∃ st1, mergeHost gv st h = .ok st1 ∧ mergeRun gv t st1 = .ok st2 := by
  unfold mergeRun at hh
  cases hp : mergeHost gv st h with
  | error e =>
    rw [hp] at hh
    exact absurd hh (by simp)
  | ok st1 =>
    rw [hp] at hh
    exact ⟨st1, rfl, hh⟩

theorem mergeRun_vcalls (gv : String → String) : ∀ (snap : Snapshot) (st st2 : MergeState),
    mergeRun gv snap st = .ok st2 →
    st2.vendor_calls = st.vendor_calls ++ foundAddresses snap := by
  intro snap
  induction snap with
  | nil =>
    intro st st2 hh
    injection hh with hh
    rw [← hh, foundAddresses_nil, List.append_nil]
  | cons h t ih =>
    intro st st2 hh
    rcases mergeRun_cons gv h t st st2 hh with ⟨st1, h1, h2⟩
    have hstep : st1.vendor_calls = st.vendor_calls ++ hostMacs h := by
      rcases mergeHost_cases gv st h st1 h1 with ⟨e1, e2⟩ |
        ⟨mac, ip, hm, ⟨dev0, hd, e1⟩ | ⟨hd, e1⟩⟩
      · rw [e1, e2, List.append_nil]
      · rw [e1, hm]
      · rw [e1, hm]
    rw [ih st1 st2 h2, hstep, foundAddresses_cons, List.append_assoc]

theorem mergeRun_coherent (gv : String → String) : ∀ (snap : Snapshot) (st st2 : MergeState),
    mergeRun gv snap st = .ok st2 →
    KeyCoherent DMDevice.mac_address st.known_dict →
    KeyCoherent DMDevice.mac_address st2.known_dict := by
  intro snap
  induction snap with
  | nil =>
    intro st st2 hh hc
    injection hh with hh
    rw [← hh]
    exact hc
  | cons h t ih =>
    intro st st2 hh hc
    rcases mergeRun_cons gv h t st st2 hh with ⟨st1, h1, h2⟩
    exact ih st1 st2 h2 (mergeHost_coherent gv st h st1 h1 hc)

theorem mergeRun_macs (gv : String → String) : ∀ (snap : Snapshot) (st st2 : MergeState),
    mergeRun gv snap st = .ok st2 →
    KeyCoherent DMDevice.mac_address st.known_dict →
    st2.connected.map DMDevice.mac_address = st.connected.map DMDevice.mac_address ++
      (foundAddresses snap).filter (fun m => decide (m ∈ dkeys st.known_dict)) ∧
    st2.unknown.map DMDevice.mac_address = st.unknown.map DMDevice.mac_address ++
      (foundAddresses snap).filter (fun m => !(decide (m ∈ dkeys st.known_dict))) := by
  intro snap
  induction snap with
  | nil =>
    intro st st2 hh hc
    injection hh with hh
    rw [← hh, foundAddresses_nil]
    constructor
    · rw [List.filter_nil, List.append_nil]
    · rw [List.filter_nil, List.append_nil]
  | cons h t ih =>
    intro st st2 hh hc
    rcases mergeRun_cons gv h t st st2 hh with ⟨st1, h1, h2⟩
    have hkeq : dkeys st1.known_dict = dkeys st.known_dict := mergeHost_keys gv st h st1 h1
    have hih := ih st1 st2 h2 (mergeHost_coherent gv st h st1 h1 hc)
    rw [hkeq] at hih
    rw [foundAddresses_cons]
    rcases mergeHost_cases gv st h st1 h1 with ⟨e1, e2⟩ |
      ⟨mac, ip, hm, ⟨dev0, hd, e1⟩ | ⟨hd, e1⟩⟩
    · rw [e2, List.nil_append]
      rw [e1] at hih
      exact hih
    · have hmem : mac ∈ dkeys st.known_dict := by
        rw [← dlookup_isSome_iff, hd]
        rfl
      have hmac0 : dev0.mac_address = mac := hc (mac, dev0) (dlookup_mem hd)
      rw [hm]
      constructor
      · rw [show ([mac] ++ foundAddresses t) = mac :: foundAddresses t from rfl,
          List.filter_cons_of_pos (by simp [hmem]), hih.1, e1]
        dsimp only
        rw [List.map_append, List.append_assoc]
        show _ ++ (List.map _ [mergedDev dev0 ip (gv mac)] ++ _) = _
        rw [show List.map DMDevice.mac_address [mergedDev dev0 ip (gv mac)] =
          [mac] from by
            show [(mergedDev dev0 ip (gv mac)).mac_address] = [mac]
            rw [show (mergedDev dev0 ip (gv mac)).mac_address = dev0.mac_address from rfl,
              hmac0]]
        rfl
      · rw [show ([mac] ++ foundAddresses t) = mac :: foundAddresses t from rfl,
          List.filter_cons_of_neg (by simp [hmem]), hih.2, e1]
    · have hmem : mac ∉ dkeys st.known_dict := by
        rw [← dlookup_isSome_iff, hd]
        simp
      rw [hm]
      constructor
      · rw [show ([mac] ++ foundAddresses t) = mac :: foundAddresses t from rfl,
          List.filter_cons_of_neg (by simp [hmem]), hih.1, e1]
      · rw [show ([mac] ++ foundAddresses t) = mac :: foundAddresses t from rfl,
          List.filter_cons_of_pos (by simp [hmem]), hih.2, e1]
        dsimp only
        rw [List.map_append, List.append_assoc]
        rfl


theorem processHost_skip (gv : String → String) (st : SAPState) (h : HostEntry)
    (addrs : Addresses) (hup : h.state = "up") (ha : h.addresses = some addrs)
    (hm : pyUpper (addrs.mac.getD "UNKNOWN") = "UNKNOWN") :
    processHost gv st h = .ok st := by
  unfold processHost
  rw [if_pos hup, ha]
  dsimp only
  rw [if_pos hm]

theorem mergeHost_skip (gv : String → String) (st : MergeState) (h : HostEntry)
    (addrs : Addresses) (hup : h.state = "up") (ha : h.addresses = some addrs)
    (hm : pyUpper (addrs.mac.getD "UNKNOWN") = "UNKNOWN") :
    mergeHost gv st h = .ok st := by
  unfold mergeHost
  rw [if_pos hup, ha]
  dsimp only
  rw [if_pos hm]

theorem sapRun_append (gv : String → String) (a b : Snapshot) : ∀ st : SAPState,
    sapRun gv (a ++ b) st =
      match sapRun gv a st with
      | .error e => .error e
      | .ok st1 => sapRun gv b st1 := by
  induction a with
  | nil => intro st; rfl
  | cons h t ih =>
    intro st
    have hshape : sapRun gv (h :: t) st = (match processHost gv st h with
        | Except.error e => Except.error e
        | Except.ok st1 => sapRun gv t st1) := rfl
    have hshape2 : sapRun gv ((h :: t) ++ b) st = (match processHost gv st h with
        | Except.error e => Except.error e
        | Except.ok st1 => sapRun gv (t ++ b) st1) := rfl
    rw [hshape, hshape2]
    cases hp : processHost gv st h with
    | error e => rfl
    | ok st1 => exact ih st1

theorem mergeRun_append (gv : String → String) (a b : Snapshot) : ∀ st : MergeState,
    mergeRun gv (a ++ b) st =
      match mergeRun gv a st with
      | .error e => .error e
      | .ok st1 => mergeRun gv b st1 := by
  induction a with
  | nil => intro st; rfl
  | cons h t ih =>
    intro st
    have hshape : mergeRun gv (h :: t) st = (match mergeHost gv st h with
        | Except.error e => Except.error e
        | Except.ok st1 => mergeRun gv t st1) := rfl
    have hshape2 : mergeRun gv ((h :: t) ++ b) st = (match mergeHost gv st h with
        | Except.error e => Except.error e
        | Except.ok st1 => mergeRun gv (t ++ b) st1) := rfl
    rw [hshape, hshape2]
    cases hp : mergeHost gv st h with
    | error e => rfl
    | ok st1 => exact ih st1

/-- C2 fails on process_scan_results of network_monitor.py: a host that
is up, has an addresses dict with no MAC, and cannot be resolved through
the ARP fallback IS reported in the unknown-devices output, as a Device
with hardware address UNKNOWN. -/
def c2Host : NMHost :=
  { host := "10.0.0.9", state := "up",
    addresses := some { mac := none, ipv4 := some "10.0.0.9" },
    hostnames := [], vendorTable := [] }

/-- The unknown-device record process_scan_results emits for c2Host. -/
def c2Dev : NMDevice :=
  { device_name := "Unknown", mac_address := "UNKNOWN", device_type := "Unknown",
    hostname := "Unknown", state := "up", known := false, vendor := none }

theorem noMac_skip_counterexample :
    process_scan_results (fun _ => none) [c2Host] [] = .ok ([], [c2Dev]) ∧
    [c2Dev] ≠ ([] : List NMDevice) := by decide

/-- C2 amended: in merge_scan_results and scan_and_process an up host
whose MAC resolves to the UNKNOWN sentinel is skipped entirely: deleting
it from the snapshot changes nothing, so it produces no device, no
registry update, no unknown report and no change-set entry, while the
other hosts are processed exactly as before. (process_scan_results of
network_monitor.py instead reports such a host in its unknown list.) -/
theorem noMac_skip_amended (gv : String → String) (s1 s2 : Snapshot) (h : HostEntry)
    (known : List DMDevice) (reg : List (String × Device)) (addrs : Addresses)
    (hup : h.state = "up") (ha : h.addresses = some addrs)
    (hm : pyUpper (addrs.mac.getD "UNKNOWN") = "UNKNOWN") :
    merge_scan_results gv (s1 ++ h :: s2) known = merge_scan_results gv (s1 ++ s2) known ∧
    scan_and_process gv (s1 ++ h :: s2) reg = scan_and_process gv (s1 ++ s2) reg := by
  constructor
  · unfold merge_scan_results
    rw [mergeRun_append, mergeRun_append]
    cases mergeRun gv s1
        { known_dict := mkKnownDict known, connected := [], unknown := [],
          vendor_calls := [] } with
    | error e => rfl
    | ok st1 =>
      show mergeRun gv (h :: s2) st1 = mergeRun gv s2 st1
      show (match mergeHost gv st1 h with
        | Except.error e => Except.error e
        | Except.ok st2 => mergeRun gv s2 st2) = mergeRun gv s2 st1
      rw [mergeHost_skip gv st1 h addrs hup ha hm]
  · have hrun : sapRun gv (s1 ++ h :: s2)
        { all_devices := reg, found_macs := [], upserts := [], vendor_calls := [] } =
        sapRun gv (s1 ++ s2)
        { all_devices := reg, found_macs := [], upserts := [], vendor_calls := [] } := by
      rw [sapRun_append, sapRun_append]
      cases sapRun gv s1
          { all_devices := reg, found_macs := [], upserts := [], vendor_calls := [] } with
      | error e => rfl
      | ok st1 =>
        show sapRun gv (h :: s2) st1 = sapRun gv s2 st1
        show (match processHost gv st1 h with
          | Except.error e => Except.error e
          | Except.ok st2 => sapRun gv s2 st2) = sapRun gv s2 st1
        rw [processHost_skip gv st1 h addrs hup ha hm]
    unfold scan_and_process
    rw [hrun]

/-- An up host that does carry a MAC, used alongside the skipped one. -/
def c2Good : HostEntry :=
  { state := "up",
    addresses := some { mac := some "22:33:44:55:66:77", ipv4 := some "10.0.0.7" },
    tcp := [], udp := [] }

/-- The up host with an addresses dict but no MAC, for the C2 witness. -/
def c2NoMac : HostEntry :=
  { state := "up", addresses := some { mac := none, ipv4 := some "10.0.0.9" },
    tcp := [], udp := [] }

theorem noMac_skip_amended_witness :
    c2NoMac.state = "up" ∧ c2NoMac.addresses = some { mac := none, ipv4 := some "10.0.0.9" } ∧
    pyUpper ((Addresses.mk none (some "10.0.0.9")).mac.getD "UNKNOWN") = "UNKNOWN" ∧
    (merge_scan_results (fun _ => "V") ([] ++ c2NoMac :: [c2Good]) [] =
      merge_scan_results (fun _ => "V") ([] ++ [c2Good]) [] ∧
     scan_and_process (fun _ => "V") ([] ++ c2NoMac :: [c2Good]) [] =
      scan_and_process (fun _ => "V") ([] ++ [c2Good]) []) :=
  ⟨rfl, rfl, by decide,
    noMac_skip_amended (fun _ => "V") [] [c2Good] c2NoMac [] []
      { mac := none, ipv4 := some "10.0.0.9" } rfl rfl (by decide)⟩

/-- C5 fails on merge_scan_results of device_manager.py: the vendor
resolver is called for every up host that carries a MAC, including one
whose hardware address is already in the registry with an
already-resolved vendor, and the fresh lookup overwrites the stored
vendor of that known device. -/
def cxKnown : DMDevice :=
  { mac_address := "AA:BB:CC:DD:EE:FF", ip_address := "10.0.0.1", vendor := "Apple",
    known := true, state := "down" }

/-- The host observation of the already-known device. -/
def cxHost : HostEntry :=
  { state := "up",
    addresses := some { mac := some "AA:BB:CC:DD:EE:FF", ipv4 := some "10.0.0.2" },
    tcp := [], udp := [] }

/-- The known device after merge overwrites it with a fresh lookup. -/
def cxMerged : DMDevice :=
  { mac_address := "AA:BB:CC:DD:EE:FF", ip_address := "10.0.0.2", vendor := "FreshVendor",
    known := true, state := "up" }

/-- The merge state produced for cxHost against cxKnown. -/
def cxOut : MergeState :=
  { known_dict := [("AA:BB:CC:DD:EE:FF", cxMerged)], connected := [cxMerged],
    unknown := [], vendor_calls := ["AA:BB:CC:DD:EE:FF"] }

theorem vendor_resolver_counterexample :
    merge_scan_results (fun _ => "FreshVendor") [cxHost] [cxKnown] = .ok cxOut ∧
    cxKnown.vendor = "Apple" ∧
    ¬ (∀ m ∈ cxOut.vendor_calls, dlookup (mkKnownDict [cxKnown]) m = none) ∧
    cxOut.connected.map DMDevice.vendor = ["FreshVendor"] := by decide

/-- C5 amended: in scan_and_process the vendor resolver is invoked only
for hardware addresses absent from the loaded registry, and every
registry device keeps its stored vendor verbatim (it is never refreshed,
not even when still unresolved); in merge_scan_results the resolver is
instead invoked once per up host carrying a MAC, registry hits included. -/
theorem vendor_resolver_amended (gv : String → String) (rows : List DBRow)
    (snap : Snapshot) (r : SAPResult) (gv2 : String → String) (snap2 : Snapshot)
    (known : List DMDevice) (out : MergeState) :
    (scan_cycle gv rows snap = .ok r →
      (∀ m ∈ r.vendor_calls, dlookup (load_all_devices rows) m = none) ∧
      ∀ k, (dlookup r.all_devices k).map Device.vendor =
        (dlookup (load_all_devices rows) k).map Device.vendor) ∧
    (merge_scan_results gv2 snap2 known = .ok out →
      out.vendor_calls = foundAddresses snap2) := by
  constructor
  · intro hr
    rcases scan_and_process_ok gv snap (load_all_devices rows) r hr with
      ⟨st, hs, h1, h2, h3, h4⟩
    constructor
    · intro m hm
      rcases sapRun_vcalls gv snap _ st hs with ⟨vs, hv, hmem⟩
      dsimp only at hv
      rw [List.nil_append] at hv
      rw [h4, hv] at hm
      exact (hmem m hm).1
    · intro k
      rw [h1, downLoop_vendor, sapRun_vendor gv snap _ st hs k]
  · intro hm
    have hv := mergeRun_vcalls gv2 snap2 _ out hm
    dsimp only at hv
    rw [List.nil_append] at hv
    exact hv

/-- The resolver used by the C5 witness. -/
def gvV : String → String := fun _ => "ResolvedV"

/-- The newly observed host of the C5 witness. -/
def vHost : HostEntry :=
  { state := "up",
    addresses := some { mac := some "11:22:33:44:55:66", ipv4 := some "10.0.0.5" },
    tcp := [], udp := [] }

/-- The new device scan_and_process creates for vHost. -/
def vNew : Device :=
  { mac_address := "11:22:33:44:55:66", ip_address := "10.0.0.5", vendor := "ResolvedV",
    description := none, known := false, state := "up", first_seen := none,
    last_seen := none, open_ports := [] }

/-- The scan_and_process result of the C5 witness cycle. -/
def vRes : SAPResult :=
  { all_devices := [("AA:BB:CC:DD:EE:FF", wDevDown)], upserts := [vNew],
    found_macs := ["11:22:33:44:55:66"], vendor_calls := ["11:22:33:44:55:66"] }

/-- The unknown DMDevice merge_scan_results emits in the C5 witness. -/
def vUnkDev : DMDevice :=
  { mac_address := "11:22:33:44:55:66", ip_address := "10.0.0.5", vendor := "ResolvedV",
    known := false, state := "up" }

/-- The merge_scan_results output of the C5 witness cycle. -/
def vOut : MergeState :=
  { known_dict := [], connected := [], unknown := [vUnkDev],
    vendor_calls := ["11:22:33:44:55:66"] }

theorem vendor_resolver_amended_witness :
    scan_cycle gvV [wRowDown] [vHost] = .ok vRes ∧
    merge_scan_results gvV [vHost] [] = .ok vOut ∧
    ((∀ m ∈ vRes.vendor_calls, dlookup (load_all_devices [wRowDown]) m = none) ∧
      ∀ k, (dlookup vRes.all_devices k).map Device.vendor =
        (dlookup (load_all_devices [wRowDown]) k).map Device.vendor) ∧
    vOut.vendor_calls = foundAddresses [vHost] :=
  ⟨by decide, by decide,
    (vendor_resolver_amended gvV [wRowDown] [vHost] vRes gvV [vHost] [] vOut).1 (by decide),
    (vendor_resolver_amended gvV [wRowDown] [vHost] vRes gvV [vHost] [] vOut).2 (by decide)⟩

/-- The resolver of scenario B, resolving the one observed MAC. -/
def gvB : String → String :=
  fun m => if m = "11:22:33:44:55:66" then "AcmeVendor" else "Unknown"

/-- The single up host of scenario B: MAC, network address, no services. -/
def bHost : HostEntry :=
  { state := "up",
    addresses := some { mac := some "11:22:33:44:55:66", ipv4 := some "10.0.0.5" },
    tcp := [], udp := [] }

/-- The Device scenario B creates. -/
def bDev : Device :=
  { mac_address := "11:22:33:44:55:66", ip_address := "10.0.0.5", vendor := "AcmeVendor",
    description := none, known := false, state := "up", first_seen := none,
    last_seen := none, open_ports := [] }

/-- The scan_and_process result of scenario B. -/
def bRes : SAPResult :=
  { all_devices := [], upserts := [bDev], found_macs := ["11:22:33:44:55:66"],
    vendor_calls := ["11:22:33:44:55:66"] }

/-- The DMDevice merge_scan_results creates in scenario B. -/
def bDMDev : DMDevice :=
  { mac_address := "11:22:33:44:55:66", ip_address := "10.0.0.5", vendor := "AcmeVendor",
    known := false, state := "up" }

/-- The merge_scan_results output of scenario B. -/
def bMOut : MergeState :=
  { known_dict := [], connected := [], unknown := [bDMDev],
    vendor_calls := ["11:22:33:44:55:66"] }

/-- C6, scenario B: with an empty registry and one up host carrying MAC
11:22:33:44:55:66 and address 10.0.0.5 with no services, reconciliation
creates exactly one new Device (known false, state up, the observed
address, vendor from the resolver) and the change set has size one, in
both scan_and_process and merge_scan_results. -/
theorem scenario_b :
    scan_cycle gvB [] [bHost] = .ok bRes ∧
    bRes.upserts.length = 1 ∧ bDev.known = false ∧ bDev.state = "up" ∧
    bDev.ip_address = "10.0.0.5" ∧ bDev.vendor = gvB "11:22:33:44:55:66" ∧
    merge_scan_results gvB [bHost] [] = .ok bMOut ∧
    bMOut.connected.length + bMOut.unknown.length = 1 ∧ bDMDev.known = false ∧
    bDMDev.state = "up" ∧ bDMDev.ip_address = "10.0.0.5" ∧
    bDMDev.vendor = gvB "11:22:33:44:55:66" := by decide

/-- An up host entry with no addresses dict at all. -/
def badHost : HostEntry := { state := "up", addresses := none, tcp := [], udp := [] }

/-- A well-formed up host following the malformed one. -/
def okHost : HostEntry :=
  { state := "up",
    addresses := some { mac := some "22:33:44:55:66:77", ipv4 := some "10.0.0.7" },
    tcp := [], udp := [] }

/-- C8: the code contradicts the spec here. A snapshot whose first host
claims state up but has no addresses object at all makes both
scan_and_process and merge_scan_results raise a KeyError (the .error
outcome), aborting the whole pass: the well-formed host behind it is
never processed, instead of the malformed entry being skipped. -/
theorem missing_addresses_aborts :
    scan_and_process (fun _ => "V") [badHost, okHost] [] = .error () ∧
    merge_scan_results (fun _ => "V") [badHost, okHost] [] = .error () := by decide

/-- C9 fails on the connected and unknown lists: a snapshot observing the
same hardware address on two hosts makes merge_scan_results emit two
unknown Devices with that address. -/
def dupHost1 : HostEntry :=
  { state := "up",
    addresses := some { mac := some "11:22:33:44:55:66", ipv4 := some "10.0.0.5" },
    tcp := [], udp := [] }

/-- Second observation of the same MAC on another address. -/
def dupHost2 : HostEntry :=
  { state := "up",
    addresses := some { mac := some "11:22:33:44:55:66", ipv4 := some "10.0.0.6" },
    tcp := [], udp := [] }

/-- First duplicate device emitted for the duplicate-MAC snapshot. -/
def dupDev1 : DMDevice :=
  { mac_address := "11:22:33:44:55:66", ip_address := "10.0.0.5", vendor := "V",
    known := false, state := "up" }

/-- Second duplicate device, same MAC, other address. -/
def dupDev2 : DMDevice :=
  { mac_address := "11:22:33:44:55:66", ip_address := "10.0.0.6", vendor := "V",
    known := false, state := "up" }

/-- The merge output for the duplicate-MAC snapshot. -/
def dupOut : MergeState :=
  { known_dict := [], connected := [], unknown := [dupDev1, dupDev2],
    vendor_calls := ["11:22:33:44:55:66", "11:22:33:44:55:66"] }

theorem identity_invariant_counterexample :
    merge_scan_results (fun _ => "V") [dupHost1, dupHost2] [] = .ok dupOut ∧
    ¬ ((dupOut.connected ++ dupOut.unknown).map DMDevice.mac_address).Nodup := by decide

/-- C9 amended: when no hardware address is observed up on more than one
host of the snapshot, the connected and unknown lists of
merge_scan_results carry pairwise distinct hardware addresses; the
device mapping of scan_and_process always has pairwise distinct
addresses as keys (duplicate observations of one MAC, however, duplicate
list entries, as the counterexample shows). -/
theorem identity_invariant_amended (gv : String → String) (snap : Snapshot)
    (known : List DMDevice) (out : MergeState) (gv2 : String → String)
    (rows : List DBRow) (snap2 : Snapshot) (r : SAPResult)
    (hm : merge_scan_results gv snap known = .ok out)
    (hnd : (foundAddresses snap).Nodup) :
    ((out.connected ++ out.unknown).map DMDevice.mac_address).Nodup ∧
    (scan_cycle gv2 rows snap2 = .ok r → (dkeys r.all_devices).Nodup) := by
  constructor
  · have hchar := mergeRun_macs gv snap _ out hm (mkKnownDict_coherent known)
    dsimp only at hchar
    rw [List.map_nil, List.nil_append, List.nil_append] at hchar
    rw [List.map_append, hchar.1, hchar.2]
    refine List.Nodup.append (hnd.filter _) (hnd.filter _) ?_
    intro a ha1 ha2
    have hp1 := (List.mem_filter.mp ha1).2
    have hp2 := (List.mem_filter.mp ha2).2
    rw [hp1] at hp2
    exact absurd hp2 (by simp)
  · intro hr
    rcases scan_and_process_ok gv2 snap2 (load_all_devices rows) r hr with
      ⟨st, hs, h1, h2, h3, h4⟩
    have hkeys := sapRun_keys gv2 snap2 _ st hs
    dsimp only at hkeys
    rw [h1, downLoop_keys, hkeys]
    exact load_all_devices_nodup rows

/-- Known device for the C9 witness. -/
def w9Known : DMDevice :=
  { mac_address := "AA:BB:CC:DD:EE:FF", ip_address := "10.0.0.1", vendor := "Apple",
    known := true, state := "down" }

/-- Snapshot of the C9 witness: one known MAC up, one new MAC up. -/
def w9Host1 : HostEntry :=
  { state := "up",
    addresses := some { mac := some "AA:BB:CC:DD:EE:FF", ipv4 := some "10.0.0.1" },
    tcp := [], udp := [] }

/-- Second, distinct host of the C9 witness snapshot. -/
def w9Host2 : HostEntry :=
  { state := "up",
    addresses := some { mac := some "11:22:33:44:55:66", ipv4 := some "10.0.0.5" },
    tcp := [], udp := [] }

/-- The connected device of the C9 witness output. -/
def w9Conn : DMDevice :=
  { mac_address := "AA:BB:CC:DD:EE:FF", ip_address := "10.0.0.1", vendor := "V",
    known := true, state := "up" }

/-- The unknown device of the C9 witness output. -/
def w9Unk : DMDevice :=
  { mac_address := "11:22:33:44:55:66", ip_address := "10.0.0.5", vendor := "V",
    known := false, state := "up" }

/-- Merge output of the C9 witness. -/
def w9Out : MergeState :=
  { known_dict := [("AA:BB:CC:DD:EE:FF", w9Conn)], connected := [w9Conn],
    unknown := [w9Unk], vendor_calls := ["AA:BB:CC:DD:EE:FF", "11:22:33:44:55:66"] }

theorem identity_invariant_amended_witness :
    merge_scan_results (fun _ => "V") [w9Host1, w9Host2] [w9Known] = .ok w9Out ∧
    (foundAddresses [w9Host1, w9Host2]).Nodup ∧
    (((w9Out.connected ++ w9Out.unknown).map DMDevice.mac_address).Nodup ∧
      (scan_cycle (fun _ => "V") [wRowDown] [] = .ok wResIdle →
        (dkeys wResIdle.all_devices).Nodup)) :=
  ⟨by decide, by decide,
    identity_invariant_amended (fun _ => "V") [w9Host1, w9Host2] [w9Known] w9Out
      (fun _ => "V") [wRowDown] [] wResIdle (by decide) (by decide)⟩


/-- The row the INSERT branch of upsert_device writes. -/
def insRow (now : Nat) (device : Device) : DBRow :=
  { mac_address := pyUpper device.mac_address
    ip_address := device.ip_address
    vendor := device.vendor
    description := device.description
    known := device.known
    state := device.state
    first_seen := some now
    last_seen := some now
    open_ports := device.open_ports }

theorem upsert_device_insert (db : List DBRow) (now : Nat) (dev : Device)
    (hnone : dbLookup db (pyUpper dev.mac_address) = none) :
    upsert_device db now dev = db ++ [insRow now dev] := by
  unfold upsert_device
  dsimp only
  rw [hnone]
  rfl

theorem upsert_device_update (db : List DBRow) (now : Nat) (dev : Device) (r0 : DBRow)
    (hsome : dbLookup db (pyUpper dev.mac_address) = some r0) :
    upsert_device db now dev =
      db.map fun r =>
        if r.mac_address = pyUpper dev.mac_address then updRow now dev r else r := by
  unfold upsert_device
  dsimp only
  rw [hsome]

theorem dbLookup_some_mac : ∀ {db : List DBRow} {k : String} {r : DBRow},
    dbLookup db k = some r → r.mac_address = k := by
  intro db
  induction db with
  | nil => intro k r h; simp [dbLookup] at h
  | cons r1 t ih =>
    intro k r h
    have h2 : (if r1.mac_address = k then some r1 else dbLookup t k) = some r := h
    by_cases hp : r1.mac_address = k
    · rw [if_pos hp] at h2
      injection h2 with h2
      rw [← h2]
      exact hp
    · rw [if_neg hp] at h2
      exact ih h2

theorem dbLookup_append (db l2 : List DBRow) (k : String) :
    dbLookup (db ++ l2) k =
      match dbLookup db k with
      | some r => some r
      | none => dbLookup l2 k := by
  induction db with
  | nil => rfl
  | cons r t ih =>
    show (if r.mac_address = k then some r else dbLookup (t ++ l2) k) = _
    by_cases hp : r.mac_address = k
    · rw [if_pos hp]
      show _ = (match (if r.mac_address = k then some r else dbLookup t k) with
        | some r2 => some r2
        | none => dbLookup l2 k)
      rw [if_pos hp]
    · rw [if_neg hp, ih]
      show _ = (match (if r.mac_address = k then some r else dbLookup t k) with
        | some r2 => some r2
        | none => dbLookup l2 k)
      rw [if_neg hp]

theorem dbLookup_map_upd (db : List DBRow) (k : String) (g : DBRow → DBRow)
    (hg : ∀ r, (g r).mac_address = r.mac_address) (k2 : String) :
    dbLookup (db.map fun r => if r.mac_address = k then g r else r) k2 =
      (dbLookup db k2).map fun r => if r.mac_address = k then g r else r := by
  induction db with
  | nil => rfl
  | cons r t ih =>
    have hmac : (if r.mac_address = k then g r else r).mac_address = r.mac_address := by
      by_cases hrk : r.mac_address = k
      · rw [if_pos hrk]
        exact hg r
      · rw [if_neg hrk]
    show (if (if r.mac_address = k then g r else r).mac_address = k2
      then some (if r.mac_address = k then g r else r)
      else dbLookup (t.map fun r2 => if r2.mac_address = k then g r2 else r2) k2) = _
    rw [hmac]
    by_cases hr2 : r.mac_address = k2
    · rw [if_pos hr2]
      show _ = (if r.mac_address = k2 then some r else dbLookup t k2).map
        fun r2 => if r2.mac_address = k then g r2 else r2
      rw [if_pos hr2]
      rfl
    · rw [if_neg hr2, ih]
      show _ = (if r.mac_address = k2 then some r else dbLookup t k2).map
        fun r2 => if r2.mac_address = k then g r2 else r2
      rw [if_neg hr2]

/-- C3: upsert_device sets first_seen and last_seen both to the current
time on a fresh insert; on an existing record it advances last_seen to
the current time and keeps a non-null first_seen untouched (COALESCE
fills it only when it was null), so repeated reconciliation of a known
device never changes its first_seen; and when the clock never runs
backwards, first_seen is never above last_seen anywhere in the table. -/
theorem upsert_first_last_seen (db : List DBRow) (now : Nat) (dev : Device)
    (hmono : ∀ r ∈ db, ∀ f, r.first_seen = some f → f ≤ now)
    (hinv : ∀ r ∈ db, ∀ f l, r.first_seen = some f → r.last_seen = some l → f ≤ l) :
    (dbLookup db (pyUpper dev.mac_address) = none →
      ∃ r, dbLookup (upsert_device db now dev) (pyUpper dev.mac_address) = some r ∧
        r.first_seen = some now ∧ r.last_seen = some now) ∧
    (∀ r0 t, dbLookup db (pyUpper dev.mac_address) = some r0 → r0.first_seen = some t →
      ∃ r, dbLookup (upsert_device db now dev) (pyUpper dev.mac_address) = some r ∧
        r.first_seen = some t ∧ r.last_seen = some now) ∧
    (∀ r0, dbLookup db (pyUpper dev.mac_address) = some r0 → r0.first_seen = none →
      ∃ r, dbLookup (upsert_device db now dev) (pyUpper dev.mac_address) = some r ∧
        r.first_seen = some now ∧ r.last_seen = some now) ∧
    (∀ r ∈ upsert_device db now dev, ∀ f l,
      r.first_seen = some f → r.last_seen = some l → f ≤ l) := by
  refine ⟨?_, ?_, ?_, ?_⟩
  · intro hnone
    rw [upsert_device_insert db now dev hnone]
    refine ⟨insRow now dev, ?_, rfl, rfl⟩
    rw [dbLookup_append, hnone]
    show dbLookup [insRow now dev] (pyUpper dev.mac_address) = some (insRow now dev)
    show (if (insRow now dev).mac_address = pyUpper dev.mac_address
      then some (insRow now dev) else none) = some (insRow now dev)
    rw [if_pos (show (insRow now dev).mac_address = pyUpper dev.mac_address from rfl)]
  · intro r0 t h0 ht
    rw [upsert_device_update db now dev r0 h0]
    refine ⟨updRow now dev r0, ?_, ?_, rfl⟩
    · rw [dbLookup_map_upd db (pyUpper dev.mac_address) (updRow now dev)
        (fun r => rfl), h0]
      show some (if r0.mac_address = pyUpper dev.mac_address
        then updRow now dev r0 else r0) = some (updRow now dev r0)
      rw [if_pos (dbLookup_some_mac h0)]
    · show (match r0.first_seen with
        | some t2 => some t2
        | none => some now) = some t
      rw [ht]
  · intro r0 h0 ht
    rw [upsert_device_update db now dev r0 h0]
    refine ⟨updRow now dev r0, ?_, ?_, rfl⟩
    · rw [dbLookup_map_upd db (pyUpper dev.mac_address) (updRow now dev)
        (fun r => rfl), h0]
      show some (if r0.mac_address = pyUpper dev.mac_address
        then updRow now dev r0 else r0) = some (updRow now dev r0)
      rw [if_pos (dbLookup_some_mac h0)]
    · show (match r0.first_seen with
        | some t2 => some t2
        | none => some now) = some now
      rw [ht]
  · intro r hr f l hf hl
    cases hlk : dbLookup db (pyUpper dev.mac_address) with
    | none =>
      rw [upsert_device_insert db now dev hlk] at hr
      rcases List.mem_append.mp hr with h1 | h1
      · exact hinv r h1 f l hf hl
      · rw [List.mem_singleton] at h1
        subst h1
        injection hf with hf
        injection hl with hl
        rw [← hf, ← hl]
    | some r0 =>
      rw [upsert_device_update db now dev r0 hlk] at hr
      rcases List.mem_map.mp hr with ⟨r1, hr1, hmap⟩
      by_cases hrk : r1.mac_address = pyUpper dev.mac_address
      · rw [if_pos hrk] at hmap
        subst hmap
        injection hl with hl
        cases hfs : r1.first_seen with
        | some f0 =>
          have hfval : (updRow now dev r1).first_seen = some f0 := by
            show (match r1.first_seen with
              | some t2 => some t2
              | none => some now) = some f0
            rw [hfs]
          rw [hfval] at hf
          injection hf with hf
          rw [← hf, ← hl]
          exact hmono r1 hr1 f0 hfs
        | none =>
          have hfval : (updRow now dev r1).first_seen = some now := by
            show (match r1.first_seen with
              | some t2 => some t2
              | none => some now) = some now
            rw [hfs]
          rw [hfval] at hf
          injection hf with hf
          rw [← hf, ← hl]
      · rw [if_neg hrk] at hmap
        subst hmap
        exact hinv r1 hr1 f l hf hl

/-- Stored row used by the C3 and C10 witnesses. -/
def w3Row : DBRow :=
  { mac_address := "AA:BB:CC:DD:EE:FF", ip_address := "10.0.0.1", vendor := "Apple",
    description := none, known := true, state := "down", first_seen := some 3,
    last_seen := some 4, open_ports := [] }

/-- In-memory device upserted by the C3 and C10 witnesses, carrying a
refreshed vendor that the update path must not persist. -/
def w3Dev : Device :=
  { mac_address := "AA:BB:CC:DD:EE:FF", ip_address := "10.0.0.2", vendor := "FreshVendor",
    description := some "desk", known := false, state := "up", first_seen := none,
    last_seen := none, open_ports := [] }

theorem upsert_first_last_seen_witness :
    (∀ r ∈ [w3Row], ∀ f, r.first_seen = some f → f ≤ 10) ∧
    (∀ r ∈ [w3Row], ∀ f l, r.first_seen = some f → r.last_seen = some l → f ≤ l) ∧
    ((dbLookup [w3Row] (pyUpper w3Dev.mac_address) = none →
      ∃ r, dbLookup (upsert_device [w3Row] 10 w3Dev) (pyUpper w3Dev.mac_address) = some r ∧
        r.first_seen = some 10 ∧ r.last_seen = some 10) ∧
    (∀ r0 t, dbLookup [w3Row] (pyUpper w3Dev.mac_address) = some r0 →
      r0.first_seen = some t →
      ∃ r, dbLookup (upsert_device [w3Row] 10 w3Dev) (pyUpper w3Dev.mac_address) = some r ∧
        r.first_seen = some t ∧ r.last_seen = some 10) ∧
    (∀ r0, dbLookup [w3Row] (pyUpper w3Dev.mac_address) = some r0 →
      r0.first_seen = none →
      ∃ r, dbLookup (upsert_device [w3Row] 10 w3Dev) (pyUpper w3Dev.mac_address) = some r ∧
        r.first_seen = some 10 ∧ r.last_seen = some 10) ∧
    (∀ r ∈ upsert_device [w3Row] 10 w3Dev, ∀ f l,
      r.first_seen = some f → r.last_seen = some l → f ≤ l)) := by
  have hm : ∀ r ∈ [w3Row], ∀ f, r.first_seen = some f → f ≤ 10 := by
    intro r hr f hf
    rw [List.mem_singleton] at hr
    subst hr
    injection hf with hf
    omega
  have hi : ∀ r ∈ [w3Row], ∀ f l, r.first_seen = some f → r.last_seen = some l → f ≤ l := by
    intro r hr f l hf hl
    rw [List.mem_singleton] at hr
    subst hr
    injection hf with hf
    injection hl with hl
    omega
  exact ⟨hm, hi, upsert_first_last_seen [w3Row] 10 w3Dev hm hi⟩

/-- C10: on the update path of upsert_device (the hardware address is
already stored) the row keeps its stored vendor, known flag and
description verbatim - a vendor refreshed in memory is never persisted -
while only network address, state, last_seen, open services and a
previously-null first_seen are written; rows with other hardware
addresses are returned unchanged. -/
theorem upsert_update_frame (db : List DBRow) (now : Nat) (dev : Device) (r0 : DBRow)
    (h : dbLookup db (pyUpper dev.mac_address) = some r0) :
    (∃ r, dbLookup (upsert_device db now dev) (pyUpper dev.mac_address) = some r ∧
      r.vendor = r0.vendor ∧ r.known = r0.known ∧ r.description = r0.description ∧
      r.ip_address = dev.ip_address ∧ r.state = dev.state ∧ r.last_seen = some now ∧
      r.open_ports = dev.open_ports ∧
      r.first_seen = (match r0.first_seen with
        | some t => some t
        | none => some now)) ∧
    ∀ r ∈ upsert_device db now dev, r.mac_address ≠ pyUpper dev.mac_address → r ∈ db := by
  constructor
  · refine ⟨updRow now dev r0, ?_, rfl, rfl, rfl, rfl, rfl, rfl, rfl, rfl⟩
    rw [upsert_device_update db now dev r0 h,
      dbLookup_map_upd db (pyUpper dev.mac_address) (updRow now dev) (fun r => rfl), h]
    show some (if r0.mac_address = pyUpper dev.mac_address
      then updRow now dev r0 else r0) = some (updRow now dev r0)
    rw [if_pos (dbLookup_some_mac h)]
  · intro r hr hne
    rw [upsert_device_update db now dev r0 h] at hr
    rcases List.mem_map.mp hr with ⟨r1, hr1, hmap⟩
    by_cases hrk : r1.mac_address = pyUpper dev.mac_address
    · rw [if_pos hrk] at hmap
      exfalso
      apply hne
      rw [← hmap]
      exact hrk
    · rw [if_neg hrk] at hmap
      rw [← hmap]
      exact hr1

theorem upsert_update_frame_witness :
    dbLookup [w3Row] (pyUpper w3Dev.mac_address) = some w3Row ∧
    ((∃ r, dbLookup (upsert_device [w3Row] 10 w3Dev) (pyUpper w3Dev.mac_address) = some r ∧
      r.vendor = w3Row.vendor ∧ r.known = w3Row.known ∧ r.description = w3Row.description ∧
      r.ip_address = w3Dev.ip_address ∧ r.state = w3Dev.state ∧ r.last_seen = some 10 ∧
      r.open_ports = w3Dev.open_ports ∧
      r.first_seen = (match w3Row.first_seen with
        | some t => some t
        | none => some 10)) ∧
    ∀ r ∈ upsert_device [w3Row] 10 w3Dev, r.mac_address ≠ pyUpper w3Dev.mac_address →
      r ∈ [w3Row]) :=
  ⟨by decide, upsert_update_frame [w3Row] 10 w3Dev w3Row (by decide)⟩


/-- One entry of known_devices.json as load_known_devices reads it:
mac_address is required, ip_address and vendor have .get defaults. -/
structure KnownJson where
  mac_address : String
  ip_address : Option String
  vendor : Option String
deriving DecidableEq

/-- The DMDevice one JSON entry becomes in load_known_devices. -/
def jsonDevice (d : KnownJson) : DMDevice :=
  { mac_address := pyUpper d.mac_address
    ip_address := d.ip_address.getD "Unknown"
    vendor := d.vendor.getD "Unknown"
    known := true
    state := "down" }

/-- DeviceManager.load_known_devices of device_manager.py: every entry
becomes a known, down device with an uppercased MAC. -/
def load_known_devices (l : List KnownJson) : List DMDevice :=
  l.map jsonDevice

/-- Two optional MACs that differ at most in letter case. -/
def macCaseEqb (m m2 : Option String) : Bool :=
  decide (m.map pyUpper = m2.map pyUpper)

/-- Two addresses dicts equal up to MAC letter case. -/
def addrCaseEqb : Option Addresses → Option Addresses → Bool
  | none, none => true
  | some a, some b => macCaseEqb a.mac b.mac && decide (a.ipv4 = b.ipv4)
  | _, _ => false

/-- Two host entries equal up to MAC letter case. -/
def hostCaseEqb (h h2 : HostEntry) : Bool :=
  decide (h.state = h2.state) && addrCaseEqb h.addresses h2.addresses &&
    decide (h.tcp = h2.tcp) && decide (h.udp = h2.udp)

/-- Two snapshots equal up to MAC letter case. -/
def snapCaseEqb : Snapshot → Snapshot → Bool
  | [], [] => true
  | h :: t, h2 :: t2 => hostCaseEqb h h2 && snapCaseEqb t t2
  | _, _ => false

/-- Two table rows equal up to MAC letter case. -/
def rowCaseEqb (r r2 : DBRow) : Bool :=
  decide (pyUpper r.mac_address = pyUpper r2.mac_address) &&
    decide (r.ip_address = r2.ip_address) && decide (r.vendor = r2.vendor) &&
    decide (r.description = r2.description) && decide (r.known = r2.known) &&
    decide (r.state = r2.state) && decide (r.first_seen = r2.first_seen) &&
    decide (r.last_seen = r2.last_seen) && decide (r.open_ports = r2.open_ports)

/-- Two tables equal up to MAC letter case. -/
def rowsCaseEqb : List DBRow → List DBRow → Bool
  | [], [] => true
  | r :: t, r2 :: t2 => rowCaseEqb r r2 && rowsCaseEqb t t2
  | _, _ => false

/-- Two JSON entries equal up to MAC letter case. -/
def jsonCaseEqb (d d2 : KnownJson) : Bool :=
  decide (pyUpper d.mac_address = pyUpper d2.mac_address) &&
    decide (d.ip_address = d2.ip_address) && decide (d.vendor = d2.vendor)

/-- Two JSON files equal up to MAC letter case. -/
def jsonsCaseEqb : List KnownJson → List KnownJson → Bool
  | [], [] => true
  | d :: t, d2 :: t2 => jsonCaseEqb d d2 && jsonsCaseEqb t t2
  | _, _ => false

/-- Two in-memory Devices equal up to MAC letter case. -/
def devCaseEqb (d d2 : Device) : Bool :=
  decide (pyUpper d.mac_address = pyUpper d2.mac_address) &&
    decide (d.ip_address = d2.ip_address) && decide (d.vendor = d2.vendor) &&
    decide (d.description = d2.description) && decide (d.known = d2.known) &&
    decide (d.state = d2.state) && decide (d.first_seen = d2.first_seen) &&
    decide (d.last_seen = d2.last_seen) && decide (d.open_ports = d2.open_ports)

theorem pyUpper_getD_congr {m m2 : Option String}
    (h : m.map pyUpper = m2.map pyUpper) :
    pyUpper (m.getD "UNKNOWN") = pyUpper (m2.getD "UNKNOWN") := by
  cases m with
  | none =>
    cases m2 with
    | none => rfl
    | some b => simp at h
  | some a =>
    cases m2 with
    | none => simp at h
    | some b =>
      simp at h
      show pyUpper a = pyUpper b
      exact h

theorem hostCaseEqb_parts {h h2 : HostEntry} (he : hostCaseEqb h h2 = true) :
    h.state = h2.state ∧ addrCaseEqb h.addresses h2.addresses = true ∧
    h.tcp = h2.tcp ∧ h.udp = h2.udp := by
  unfold hostCaseEqb at he
  simp only [Bool.and_eq_true, decide_eq_true_eq] at he
  exact ⟨he.1.1.1, he.1.1.2, he.1.2, he.2⟩

theorem processHost_congr (gv : String → String) (st : SAPState) {h h2 : HostEntry}
    (he : hostCaseEqb h h2 = true) : processHost gv st h = processHost gv st h2 := by
  rcases hostCaseEqb_parts he with ⟨hst, hadr, htcp, hudp⟩
  have hports : hostOpenPorts h = hostOpenPorts h2 := by
    unfold hostOpenPorts extractPorts
    rw [htcp, hudp]
  unfold processHost
  rw [hst, hports]
  cases ha : h.addresses with
  | none =>
    cases ha2 : h2.addresses with
    | none => rfl
    | some b =>
      rw [ha, ha2] at hadr
      exact absurd hadr (by simp [addrCaseEqb])
  | some a =>
    cases ha2 : h2.addresses with
    | none =>
      rw [ha, ha2] at hadr
      exact absurd hadr (by simp [addrCaseEqb])
    | some b =>
      rw [ha, ha2] at hadr
      have hparts : macCaseEqb a.mac b.mac = true ∧ a.ipv4 = b.ipv4 := by
        unfold addrCaseEqb at hadr
        simpa [Bool.and_eq_true, decide_eq_true_eq] using hadr
      have hmac : pyUpper (a.mac.getD "UNKNOWN") = pyUpper (b.mac.getD "UNKNOWN") := by
        refine pyUpper_getD_congr ?_
        have hm := hparts.1
        unfold macCaseEqb at hm
        exact of_decide_eq_true hm
      have hip : a.ipv4.getD "Unknown" = b.ipv4.getD "Unknown" := by rw [hparts.2]
      dsimp only
      rw [hmac, hip]

theorem snapCaseEqb_parts {h h2 : HostEntry} {t t2 : Snapshot}
    (hs : snapCaseEqb (h :: t) (h2 :: t2) = true) :
    hostCaseEqb h h2 = true ∧ snapCaseEqb t t2 = true := by
  unfold snapCaseEqb at hs
  simpa [Bool.and_eq_true] using hs

theorem sapRun_congr (gv : String → String) : ∀ (s s2 : Snapshot),
    snapCaseEqb s s2 = true → ∀ st : SAPState, sapRun gv s st = sapRun gv s2 st := by
  intro s
  induction s with
  | nil =>
    intro s2 hs st
    cases s2 with
    | nil => rfl
    | cons h2 t2 => exact absurd hs (by simp [snapCaseEqb])
  | cons h t ih =>
    intro s2 hs st
    cases s2 with
    | nil => exact absurd hs (by simp [snapCaseEqb])
    | cons h2 t2 =>
      rcases snapCaseEqb_parts hs with ⟨hh, ht⟩
      show (match processHost gv st h with
        | Except.error e => Except.error e
        | Except.ok st1 => sapRun gv t st1) =
        (match processHost gv st h2 with
        | Except.error e => Except.error e
        | Except.ok st1 => sapRun gv t2 st1)
      rw [processHost_congr gv st hh]
      cases processHost gv st h2 with
      | error e => rfl
      | ok st1 => exact ih t2 ht st1

theorem mergeHost_congr (gv : String → String) (st : MergeState) {h h2 : HostEntry}
    (he : hostCaseEqb h h2 = true) : mergeHost gv st h = mergeHost gv st h2 := by
  rcases hostCaseEqb_parts he with ⟨hst, hadr, htcp, hudp⟩
  unfold mergeHost
  rw [hst]
  cases ha : h.addresses with
  | none =>
    cases ha2 : h2.addresses with
    | none => rfl
    | some b =>
      rw [ha, ha2] at hadr
      exact absurd hadr (by simp [addrCaseEqb])
  | some a =>
    cases ha2 : h2.addresses with
    | none =>
      rw [ha, ha2] at hadr
      exact absurd hadr (by simp [addrCaseEqb])
    | some b =>
      rw [ha, ha2] at hadr
      have hparts : macCaseEqb a.mac b.mac = true ∧ a.ipv4 = b.ipv4 := by
        unfold addrCaseEqb at hadr
        simpa [Bool.and_eq_true, decide_eq_true_eq] using hadr
      have hmac : pyUpper (a.mac.getD "UNKNOWN") = pyUpper (b.mac.getD "UNKNOWN") := by
        refine pyUpper_getD_congr ?_
        have hm := hparts.1
        unfold macCaseEqb at hm
        exact of_decide_eq_true hm
      have hip : a.ipv4.getD "Unknown" = b.ipv4.getD "Unknown" := by rw [hparts.2]
      dsimp only
      rw [hmac, hip]

theorem mergeRun_congr (gv : String → String) : ∀ (s s2 : Snapshot),
    snapCaseEqb s s2 = true → ∀ st : MergeState, mergeRun gv s st = mergeRun gv s2 st := by
  intro s
  induction s with
  | nil =>
    intro s2 hs st
    cases s2 with
    | nil => rfl
    | cons h2 t2 => exact absurd hs (by simp [snapCaseEqb])
  | cons h t ih =>
    intro s2 hs st
    cases s2 with
    | nil => exact absurd hs (by simp [snapCaseEqb])
    | cons h2 t2 =>
      rcases snapCaseEqb_parts hs with ⟨hh, ht⟩
      show (match mergeHost gv st h with
        | Except.error e => Except.error e
        | Except.ok st1 => mergeRun gv t st1) =
        (match mergeHost gv st h2 with
        | Except.error e => Except.error e
        | Except.ok st1 => mergeRun gv t2 st1)
      rw [mergeHost_congr gv st hh]
      cases mergeHost gv st h2 with
      | error e => rfl
      | ok st1 => exact ih t2 ht st1

theorem rowCaseEqb_parts {r r2 : DBRow} (h : rowCaseEqb r r2 = true) :
    pyUpper r.mac_address = pyUpper r2.mac_address ∧ rowDevice r = rowDevice r2 := by
  unfold rowCaseEqb at h
  simp only [Bool.and_eq_true, decide_eq_true_eq] at h
  obtain ⟨⟨⟨⟨⟨⟨⟨⟨h1, h2⟩, h3⟩, h4⟩, h5⟩, h6⟩, h7⟩, h8⟩, h9⟩ := h
  refine ⟨h1, ?_⟩
  unfold rowDevice
  rw [h1, h2, h3, h4, h5, h6, h7, h8, h9]

theorem loadGo_congr : ∀ (rows rows2 : List DBRow), rowsCaseEqb rows rows2 = true →
    ∀ acc : List (String × Device), loadGo acc rows = loadGo acc rows2 := by
  intro rows
  induction rows with
  | nil =>
    intro rows2 hs acc
    cases rows2 with
    | nil => rfl
    | cons r2 t2 => exact absurd hs (by simp [rowsCaseEqb])
  | cons r t ih =>
    intro rows2 hs acc
    cases rows2 with
    | nil => exact absurd hs (by simp [rowsCaseEqb])
    | cons r2 t2 =>
      have hp : rowCaseEqb r r2 = true ∧ rowsCaseEqb t t2 = true := by
        unfold rowsCaseEqb at hs
        simpa [Bool.and_eq_true] using hs
      rcases rowCaseEqb_parts hp.1 with ⟨h1, h2⟩
      show loadGo (dictInsert acc (pyUpper r.mac_address) (rowDevice r)) t =
        loadGo (dictInsert acc (pyUpper r2.mac_address) (rowDevice r2)) t2
      rw [h1, h2]
      exact ih t2 hp.2 _

theorem load_all_devices_congr (rows rows2 : List DBRow)
    (h : rowsCaseEqb rows rows2 = true) :
    load_all_devices rows = load_all_devices rows2 :=
  loadGo_congr rows rows2 h []

theorem load_known_devices_congr : ∀ (l l2 : List KnownJson),
    jsonsCaseEqb l l2 = true → load_known_devices l = load_known_devices l2 := by
  intro l
  induction l with
  | nil =>
    intro l2 hs
    cases l2 with
    | nil => rfl
    | cons d2 t2 => exact absurd hs (by simp [jsonsCaseEqb])
  | cons d t ih =>
    intro l2 hs
    cases l2 with
    | nil => exact absurd hs (by simp [jsonsCaseEqb])
    | cons d2 t2 =>
      have hp : jsonCaseEqb d d2 = true ∧ jsonsCaseEqb t t2 = true := by
        unfold jsonsCaseEqb at hs
        simpa [Bool.and_eq_true] using hs
      have h3 : pyUpper d.mac_address = pyUpper d2.mac_address ∧
          d.ip_address = d2.ip_address ∧ d.vendor = d2.vendor := by
        have hj := hp.1
        unfold jsonCaseEqb at hj
        simpa [Bool.and_eq_true, decide_eq_true_eq, and_assoc] using hj
      have hdev : jsonDevice d = jsonDevice d2 := by
        unfold jsonDevice
        rw [h3.1, h3.2.1, h3.2.2]
      show jsonDevice d :: load_known_devices t = jsonDevice d2 :: load_known_devices t2
      rw [hdev, ih t2 hp.2]

theorem upsert_device_congr (db : List DBRow) (now : Nat) {dev dev2 : Device}
    (h : devCaseEqb dev dev2 = true) :
    upsert_device db now dev = upsert_device db now dev2 := by
  unfold devCaseEqb at h
  simp only [Bool.and_eq_true, decide_eq_true_eq] at h
  obtain ⟨⟨⟨⟨⟨⟨⟨⟨h1, h2⟩, h3⟩, h4⟩, h5⟩, h6⟩, h7⟩, h8⟩, h9⟩ := h
  unfold upsert_device updRow
  dsimp only
  rw [h1, h2, h3, h4, h5, h6, h9]

/-- C7: hardware addresses are uppercased before any comparison or
storage, when loading the registry (from Postgres rows or from
known_devices.json), when processing snapshot hosts, and when upserting;
hence inputs differing only in the letter case of their MACs match the
same identities and give identical outputs in scan_and_process,
merge_scan_results and upsert_device. -/
theorem case_insensitive_reconcile (gv : String → String) (rows rows2 : List DBRow)
    (snap snap2 : Snapshot) (kl kl2 : List KnownJson) (gv2 : String → String)
    (snap3 snap4 : Snapshot) (db : List DBRow) (now : Nat) (dev dev2 : Device)
    (hrows : rowsCaseEqb rows rows2 = true) (hsnap : snapCaseEqb snap snap2 = true)
    (hkl : jsonsCaseEqb kl kl2 = true) (hsnap2 : snapCaseEqb snap3 snap4 = true)
    (hdev : devCaseEqb dev dev2 = true) :
    scan_cycle gv rows snap = scan_cycle gv rows2 snap2 ∧
    merge_scan_results gv2 snap3 (load_known_devices kl) =
      merge_scan_results gv2 snap4 (load_known_devices kl2) ∧
    upsert_device db now dev = upsert_device db now dev2 := by
  refine ⟨?_, ?_, upsert_device_congr db now hdev⟩
  · unfold scan_cycle scan_and_process
    rw [load_all_devices_congr rows rows2 hrows, sapRun_congr gv snap snap2 hsnap]
  · unfold merge_scan_results
    rw [load_known_devices_congr kl kl2 hkl, mergeRun_congr gv2 snap3 snap4 hsnap2]

/-- Lowercase table row for the C7 witness. -/
def w7RowL : DBRow :=
  { mac_address := "aa:bb:cc:dd:ee:ff", ip_address := "10.0.0.1", vendor := "Apple",
    description := none, known := true, state := "down", first_seen := some 3,
    last_seen := some 4, open_ports := [] }

/-- The same row with the MAC in mixed upper case. -/
def w7RowU : DBRow :=
  { mac_address := "Aa:Bb:CC:dd:EE:ff", ip_address := "10.0.0.1", vendor := "Apple",
    description := none, known := true, state := "down", first_seen := some 3,
    last_seen := some 4, open_ports := [] }

/-- Lowercase host observation for the C7 witness. -/
def w7HostL : HostEntry :=
  { state := "up",
    addresses := some { mac := some "aa:bb:cc:dd:ee:ff", ipv4 := some "10.0.0.2" },
    tcp := [], udp := [] }

/-- The same observation with the MAC upcased. -/
def w7HostU : HostEntry :=
  { state := "up",
    addresses := some { mac := some "AA:BB:CC:DD:EE:FF", ipv4 := some "10.0.0.2" },
    tcp := [], udp := [] }

/-- Lowercase JSON entry for the C7 witness. -/
def w7JsonL : KnownJson :=
  { mac_address := "aa:bb:cc:dd:ee:ff", ip_address := some "10.0.0.1", vendor := some "Apple" }

/-- The same JSON entry with the MAC upcased. -/
def w7JsonU : KnownJson :=
  { mac_address := "AA:BB:CC:DD:EE:FF", ip_address := some "10.0.0.1", vendor := some "Apple" }

/-- Lowercase device for the C7 upsert witness. -/
def w7DevL : Device :=
  { mac_address := "aa:bb:cc:dd:ee:ff", ip_address := "10.0.0.2", vendor := "Apple",
    description := none, known := true, state := "up", first_seen := none,
    last_seen := none, open_ports := [] }

/-- The same device with the MAC upcased. -/
def w7DevU : Device :=
  { mac_address := "AA:BB:CC:DD:EE:FF", ip_address := "10.0.0.2", vendor := "Apple",
    description := none, known := true, state := "up", first_seen := none,
    last_seen := none, open_ports := [] }

theorem case_insensitive_reconcile_witness :
    rowsCaseEqb [w7RowL] [w7RowU] = true ∧ snapCaseEqb [w7HostL] [w7HostU] = true ∧
    jsonsCaseEqb [w7JsonL] [w7JsonU] = true ∧ devCaseEqb w7DevL w7DevU = true ∧
    (scan_cycle (fun _ => "V") [w7RowL] [w7HostL] =
      scan_cycle (fun _ => "V") [w7RowU] [w7HostU] ∧
    merge_scan_results (fun _ => "V") [w7HostL] (load_known_devices [w7JsonL]) =
      merge_scan_results (fun _ => "V") [w7HostU] (load_known_devices [w7JsonU]) ∧
    upsert_device [w7RowL] 10 w7DevL = upsert_device [w7RowL] 10 w7DevU) :=
  ⟨by decide, by decide, by decide, by decide,
    case_insensitive_reconcile (fun _ => "V") [w7RowL] [w7RowU] [w7HostL] [w7HostU]
      [w7JsonL] [w7JsonU] (fun _ => "V") [w7HostL] [w7HostU] [w7RowL] 10 w7DevL w7DevU
      (by decide) (by decide) (by decide) (by decide) (by decide)⟩

end NetMon
